import Mathlib

/-!
Verification development for the comprehensive Solidity analysis pipeline of
the mpc-bb repository.  The TypeScript sources under src/ are shallowly
embedded as executable Lean definitions: pure utility functions become Lean
functions, the JavaScript regular expressions used by the scanner become a
small backtracking pattern engine with JS-faithful greedy/leftmost semantics,
and the orchestrator's try/catch control flow becomes an Except computation.
-/

namespace MpcBB

/-! ## Generic list/string helpers (JS semantics) -/

/-- Boolean test that the first list is a prefix of the second. -/
def prefB : List Char → List Char → Bool
  | [], _ => true
  | _ :: _, [] => false
  | a :: as', b :: bs => a == b && prefB as' bs

/-- Boolean test that the first list occurs as a contiguous segment of the
second; models the JS String.prototype.includes test. -/
def infB (n : List Char) : List Char → Bool
  | [] => prefB n []
  | c :: cs => prefB n (c :: cs) || infB n cs

/-- Substring containment on strings, modelling s.includes(t) in JS. -/
def strIncludes (hay needle : String) : Bool :=
  infB needle.toList hay.toList

/-- First-occurrence deduplication of a list of strings; models the JS
idiom of spreading values through a Set, which keeps insertion order and
drops later duplicates. -/
def dedupFirstStr : List String → List String :=
  go []
where
  go (seen : List String) : List String → List String
    | [] => []
    | s :: rest =>
      if seen.contains s then go seen rest
      else s :: go (seen ++ [s]) rest

/-- Lower-casing through the character list (kernel-reducible, unlike the
library string map). -/
def strToLower (s : String) : String := String.mk (s.toList.map Char.toLower)

/-- Prefix of the first n characters, the JS substring(0, n). -/
def strTake (s : String) (n : Nat) : String := String.mk (s.toList.take n)

/-- Trim surrounding whitespace, the JS String.prototype.trim. -/
def strTrim (s : String) : String :=
  String.mk (((s.toList.dropWhile isWsChar).reverse.dropWhile isWsChar).reverse)
where
  isWsChar (c : Char) : Bool := c == ' ' || c == '\t' || c == '\n' || c == '\r'

/-- JS Math.round on a rational: round half away from negative infinity. -/
def jsRound (q : ℚ) : ℤ := (q + 1 / 2).floor

/-- Replace the first occurrence of a pattern inside a string (the behaviour
of JS String.prototype.replace with a string pattern). -/
def replaceFirst (s pat repl : String) : String :=
  String.mk (go s.toList)
where
  go : List Char → List Char
    | [] => []
    | c :: cs =>
      if prefB pat.toList (c :: cs) then
        repl.toList ++ (c :: cs).drop pat.toList.length
      else c :: go cs

/-! ## A small pattern engine for the JS regular expressions in the source

Only the constructs the repository's patterns use are modelled: literals,
single-character classes, concatenation, alternation, greedy star/plus/opt,
word boundaries and (multiline) line starts.  Matching returns candidate
remainders in JS preference order (greedy first, alternatives left to
right), so the head of the returned list is the match JS would pick. -/

inductive Re where
  | lit : List Char → Re
  | cls : (Char → Bool) → Re
  | seqP : Re → Re → Re
  | altP : Re → Re → Re
  | star : Re → Re
  | optP : Re → Re
  | wordB : Re
  | lineStart : Re

namespace Re

def plusP (r : Re) : Re := seqP r (star r)

def size : Re → Nat
  | lit _ => 1
  | cls _ => 1
  | seqP a b => size a + size b + 1
  | altP a b => size a + size b + 1
  | star r => size r + 1
  | optP r => size r + 1
  | wordB => 1
  | lineStart => 1

end Re

/-- Word characters for the JS \w class and \b boundaries. -/
def isWordChar (c : Char) : Bool := c.isAlphanum || c == '_'

/-- Whitespace for the JS \s class (the characters relevant to source text). -/
def isWs (c : Char) : Bool := c == ' ' || c == '\t' || c == '\n' || c == '\r'

/-- JS dot: any character except a line terminator. -/
def isDot (c : Char) : Bool := !(c == '\n' || c == '\r')

/-- Matcher state: the previously consumed character (for word boundaries
and line starts) and the remaining input. -/
abbrev ReSt := Option Char × List Char

/-- Consume a literal, tracking the last consumed character. -/
def litStep : List Char → ReSt → Option ReSt
  | [], st => some st
  | a :: as', (_, c :: cs) => if a == c then litStep as' (some c, cs) else none
  | _ :: _, (_, []) => none

/-- Is the state at a word character on the given side? -/
def optWord : Option Char → Bool
  | some c => isWordChar c
  | none => false

/-- All candidate states after matching a pattern, in JS preference order
(greedy first, left alternative first).  The fuel bounds recursion depth;
reFuel below always supplies enough. -/
def reMatch : Nat → Re → ReSt → List ReSt
  | 0, _, _ => []
  | fuel + 1, re, st =>
    match re with
    | .lit l => (litStep l st).toList
    | .cls p =>
      match st.2 with
      | [] => []
      | c :: cs => if p c then [(some c, cs)] else []
    | .seqP a b => (reMatch fuel a st).flatMap (reMatch fuel b)
    | .altP a b => reMatch fuel a st ++ reMatch fuel b st
    | .star a =>
      (((reMatch fuel a st).filter (fun st' => st'.2.length < st.2.length)).flatMap
        (reMatch fuel (.star a))) ++ [st]
    | .optP a => reMatch fuel a st ++ [st]
    | .wordB =>
      if optWord st.1 != optWord (st.2.head?) then [st] else []
    | .lineStart =>
      if st.1 == none || st.1 == some '\n' then [st] else []

/-- Enough fuel for the depth of any match of re on the given input. -/
def reFuel (re : Re) (cs : List Char) : Nat :=
  (re.size + 2) * (cs.length + 2)

/-- The match JS would select at this exact position, if any: the matched
characters together with the state after the match. -/
def reMatchAt (re : Re) (prev : Option Char) (cs : List Char) :
    Option (List Char × ReSt) :=
  match (reMatch (reFuel re cs) re (prev, cs)).head? with
  | some st' => some (cs.take (cs.length - st'.2.length), st')
  | none => none

/-- Leftmost match search: the JS exec semantics.  Returns the matched
characters and the state after the match. -/
def reFind (re : Re) : Option Char → List Char → Option (List Char × ReSt)
  | prev, cs =>
    match reMatchAt re prev cs with
    | some r => some r
    | none =>
      match cs with
      | [] => none
      | c :: cs' => reFind re (some c) cs'

/-- Existence test, modelling the truthiness of s.match(re). -/
def reTest (re : Re) (s : String) : Bool := (reFind re none s.toList).isSome

/-- All matches of a global regex, modelling re.exec in a loop / s.match
with the g flag: leftmost match, continue after its end (advancing one
character on an empty match). -/
def reGAll (re : Re) (s : String) : List (List Char) :=
  go (s.toList.length + 1) none s.toList
where
  go : Nat → Option Char → List Char → List (List Char)
    | 0, _, _ => []
    | fuel + 1, prev, cs =>
      match reFind re prev cs with
      | none => []
      | some (m, st') =>
        if m.isEmpty then
          match st'.2 with
          | [] => [m]
          | c :: rest => m :: go fuel (some c) rest
        else m :: go fuel st'.1 st'.2

/-- Number of matches of a global regex. -/
def reCount (re : Re) (s : String) : Nat := (reGAll re s).length

/-! ## Pattern abbreviations -/

def reLit (s : String) : Re := .lit s.toList
def reDotStar : Re := .star (.cls isDot)
def reWsStar : Re := .star (.cls isWs)
def reWsPlus : Re := Re.plusP (.cls isWs)
def reWordPlus : Re := Re.plusP (.cls isWordChar)
def reNot (c : Char) : Re := .cls (fun d => !(d == c))

def reSeqL : List Re → Re
  | [] => .optP (.lit [])
  | [r] => r
  | r :: rs => .seqP r (reSeqL rs)

def reAltL : List Re → Re
  | [] => .lit ['\u0000']
  | [r] => r
  | r :: rs => .altP r (reAltL rs)

/-! ## Models of src/src/utils/solidity.utils.ts -/

/-- Solidity function record, from the SolidityFunction interface. -/
structure SolidityFunction where
  name : String
  visibility : String
  mutability : String
  modifiers : List String
  lineNumber : Nat
deriving Repr, DecidableEq

/-- Build one function record the way the regex loop in extractFunctions
does: the optional visibility capture defaults to internal and the optional
mutability capture defaults to nonpayable (m[2] or internal, m[3] or
nonpayable in the source). -/
def buildFn (name : String) (vis mtb : Option String) (line : Nat) :
    SolidityFunction :=
  { name := name
    visibility := vis.getD "internal"
    mutability := mtb.getD "nonpayable"
    modifiers := []
    lineNumber := line }

/-- Greedy maximal run of characters satisfying p, returning the run and
the rest. -/
def takeRun (p : Char → Bool) : List Char → List Char × List Char
  | [] => ([], [])
  | c :: cs =>
    if p c then
      let (run, rest) := takeRun p cs
      (c :: run, rest)
    else ([], c :: cs)

/-- Try one visibility / mutability keyword alternative as a literal prefix,
in the alternation order of the source regex. -/
def matchKeyword (kws : List String) (cs : List Char) :
    Option (String × List Char) :=
  match kws with
  | [] => none
  | k :: rest =>
    if prefB k.toList cs then some (k, cs.drop k.toList.length)
    else matchKeyword rest cs

/-- Attempt the extractFunctions regex at exactly this position.  The JS
pattern is function\s+(\w+)\s*\([^)]*\)\s*(public|external|internal|private)?
\s*(view|pure|payable)? and its greedy matching at a fixed position is
deterministic, which this transcription follows piece by piece. -/
def matchFunctionAt (cs : List Char) :
    Option (String × Option String × Option String × Nat × List Char) :=
  if prefB "function".toList cs then
    let r0 := cs.drop 8
    let (ws1, r1) := takeRun isWs r0
    if ws1.isEmpty then none
    else
      let (nm, r2) := takeRun isWordChar r1
      if nm.isEmpty then none
      else
        let (_, r3) := takeRun isWs r2
        match r3 with
        | '(' :: r4 =>
          let (_, r5) := takeRun (fun c => !(c == ')')) r4
          match r5 with
          | ')' :: r6 =>
            let (_, r7) := takeRun isWs r6
            let (vis, r8) :=
              match matchKeyword ["public", "external", "internal", "private"] r7 with
              | some (k, rest) => (some k, rest)
              | none => (none, r7)
            let (_, r9) := takeRun isWs r8
            let (mtb, r10) :=
              match matchKeyword ["view", "pure", "payable"] r9 with
              | some (k, rest) => (some k, rest)
              | none => (none, r9)
            some (String.mk nm, vis, mtb, cs.length - r10.length, r10)
          | _ => none
        | _ => none
  else none

/-- The exec loop of extractFunctions: leftmost matches, resuming after
each match end; the line number counts newlines before the match start. -/
def extractFunctionsGo : Nat → Nat → List Char → List SolidityFunction
  | 0, _, _ => []
  | _ + 1, _, [] => []
  | fuel + 1, nl, c :: cs =>
    match matchFunctionAt (c :: cs) with
    | some (nm, vis, mtb, len, rest) =>
      buildFn nm vis mtb (nl + 1) ::
        extractFunctionsGo fuel
          (nl + (((c :: cs).take len).filter (fun d => d == '\n')).length) rest
    | none =>
      extractFunctionsGo fuel (nl + (if c == '\n' then 1 else 0)) cs

/-- Model of extractFunctions from src/src/utils/solidity.utils.ts. -/
def extractFunctions (src : String) : List SolidityFunction :=
  extractFunctionsGo (src.toList.length + 1) 0 src.toList

/-! ### checkVulnerabilityIndicators (src/src/utils/solidity.utils.ts lines 97-206)

Each condition below transcribes one check of the scanner; the patterns are
the JS regular expressions written in the engine above.  Case-insensitive
patterns are applied to the lower-cased text with a lower-cased pattern. -/

def pCallValue : Re := reSeqL [reLit ".call\x7b", Re.star (reNot '}'), reLit "value:"]
def pPrivilegedFn : Re :=
  reSeqL [reLit "function", reWsPlus, reWordPlus, reDotStar, reLit "external",
    reDotStar, reLit "\x7b", Re.star (reNot '}'), Re.wordB,
    reAltL [reLit "transfer", reLit "withdraw", reLit "withdrawall",
      reLit "setowner", reLit "changeowner", reLit "destroy", reLit "kill"],
    Re.wordB]
def pRequireMsgSender : Re :=
  reSeqL [reLit "require(", reDotStar, reLit "==", reDotStar, reLit "msg.sender"]
def pArith : Re :=
  reAltL [reLit "++", reLit "--",
    reSeqL [reLit "+", reWsStar, reNot '='],
    reSeqL [reLit "-", reWsStar, reNot '=']]
def pPragma08 : Re :=
  reSeqL [reLit "pragma", reWsPlus, reLit "solidity", reWsPlus,
    .cls (fun c => c == '>' || c == '='), reLit "0.8"]
def pAnyCall : Re := reAltL [reLit ".call(", reLit ".send(", reLit ".transfer("]
def pSuccessCheck : Re :=
  reAltL [reSeqL [reLit "require(", reDotStar, reLit "success"],
    reSeqL [reLit "if", reWsStar, reLit "(", reDotStar, reLit "success"]]
def pBlockTime : Re :=
  reAltL [reLit "block.timestamp", reLit "block.number",
    reSeqL [reLit "now", Re.wordB]]
def pRequireBlock : Re :=
  reSeqL [reLit "require(", reDotStar, reLit "block.",
    reAltL [reLit "timestamp", reLit "number"]]
def pForCall : Re :=
  reSeqL [reLit "for", reWsStar, reLit "(", Re.star (reNot ')'), reLit ")",
    reWsStar, reLit "\x7b", Re.star (reNot '}'), reLit ".call("]
def pFnBrace : Re := reSeqL [reLit "function", reWsPlus, reWordPlus, reDotStar, reLit "\x7b"]
def pEvent : Re := reSeqL [reLit "event", reWsPlus, reWordPlus]
def pStorageDecl : Re :=
  reSeqL [reLit "storage", reWsPlus, reWordPlus, reWsPlus, reWordPlus, reLit ";"]
def pAssign : Re := reSeqL [reLit "=", reWsStar, Re.plusP (reNot ';'), reLit ";"]
def pPragmaDecl : Re :=
  reSeqL [reLit "pragma", reWsPlus, reLit "solidity", reWsPlus,
    Re.plusP (reNot ';'), reLit ";"]
def pPragmaOld : Re :=
  reSeqL [reLit "pragma", reWsPlus, reLit "solidity", reWsPlus, reLit "0.",
    .cls (fun c => c == '4' || c == '5' || c == '6' || c == '7'), reLit "."]
def pFnAddress : Re :=
  reSeqL [reLit "function", reWsPlus, reWordPlus, reDotStar, reLit "address",
    reDotStar, reLit "\x7b"]
def pRequireZero : Re :=
  reSeqL [reLit "require(", reDotStar, reLit "!=", reDotStar, reLit "address(0)"]
def pFnPayableExt : Re :=
  reSeqL [reLit "function", reWsPlus, reWordPlus, reDotStar, reLit "payable",
    reDotStar, reLit "external", reDotStar, reLit "\x7b"]
def pOwnerOrAC : Re := reAltL [reLit "onlyOwner", reLit "AccessControl"]
def pTransferSend : Re := reAltL [reLit ".transfer(", reLit ".send("]
def pRequireSuccess : Re := reSeqL [reLit "require(", reDotStar, reLit "success"]
def pBlockProp : Re :=
  reSeqL [reLit "block.",
    reAltL [reLit "timestamp", reLit "number", reLit "hash", reLit "difficulty",
      reLit "gaslimit"]]
def pRandom : Re := reAltL [reLit "random", reLit "Random"]
def pContinueBreak : Re := reAltL [reLit "continue", reLit "break"]
def pStateVar : Re :=
  reSeqL [Re.lineStart, reWsStar,
    reAltL [reLit "uint", reLit "int", reLit "bool", reLit "address",
      reLit "string", reLit "bytes", reLit "mapping"],
    reWsPlus, reWordPlus]
def pLocalVar : Re :=
  reSeqL [reLit "function", reWsPlus, reWordPlus, reDotStar, reLit "(",
    Re.star (reNot ')'), reLit ")", Re.star (reNot '{'), reLit "\x7b",
    Re.star (reNot '}'), Re.wordB,
    reAltL [reLit "uint", reLit "int", reLit "bool", reLit "address",
      reLit "string", reLit "bytes"],
    reWsPlus, reWordPlus]

def condReentrancyCall (src : String) : Bool :=
  (strIncludes src ".call\x7b" || strIncludes src ".call(" || strIncludes src ".send(" ||
    strIncludes src ".transfer(") &&
  !strIncludes src "nonReentrant" && !strIncludes src "ReentrancyGuard"
def condCallValue (src : String) : Bool :=
  reTest pCallValue src && !strIncludes src "nonReentrant"
def condTxOrigin (src : String) : Bool := strIncludes src "tx.origin"
def condPrivileged (src : String) : Bool :=
  reTest pPrivilegedFn (strToLower src) && !strIncludes src "onlyOwner" &&
    !strIncludes src "AccessControl"
def condSelfdestruct (src : String) : Bool :=
  strIncludes src "selfdestruct" && !strIncludes src "onlyOwner"
def condDelegatecall (src : String) : Bool :=
  strIncludes src "delegatecall" && !reTest pRequireMsgSender (strToLower src)
def condArith (src : String) : Bool :=
  reTest pArith src && !strIncludes src "SafeMath" && !reTest pPragma08 src
def condUncheckedCall (src : String) : Bool :=
  reTest pAnyCall src && !reTest pSuccessCheck src
def condTimeDep (src : String) : Bool :=
  reTest pBlockTime src && reTest pRequireBlock src
def condLoopCall (src : String) : Bool := reTest pForCall src
def condMissingEvents (src : String) : Bool :=
  decide (reCount pEvent src * 2 < reCount pFnBrace src)
def condAssembly (src : String) : Bool := strIncludes src "assembly"
def condUninitStorage (src : String) : Bool :=
  reTest pStorageDecl src && !reTest pAssign src
def condFloatingPragma (src : String) : Bool :=
  ((reGAll pPragmaDecl src).map String.mk).any fun p =>
    strIncludes p "^" || strIncludes p ">=" || strIncludes p "~"
def condOutdatedPragma (src : String) : Bool := reTest pPragmaOld src
def condZeroAddr (src : String) : Bool :=
  reTest pFnAddress src && !reTest pRequireZero src
def condPayableFn (src : String) : Bool :=
  reTest pFnPayableExt src && !reTest pOwnerOrAC src
def condTransferSend (src : String) : Bool :=
  reTest pTransferSend src && !reTest pRequireSuccess src
def condWeakRandom (src : String) : Bool :=
  reTest pBlockProp src && reTest pRandom src
def condDosLoop (src : String) : Bool :=
  reTest pForCall src && !reTest pContinueBreak src
def condShadowing (src : String) : Bool :=
  decide (0 < reCount pStateVar src) && decide (0 < reCount pLocalVar src)

/-- Model of checkVulnerabilityIndicators: the sequence of pushes of the
source function, one conditional append per check, in source order. -/
def checkVulnerabilityIndicators (src : String) : List String :=
  (if condReentrancyCall src then ["CRITICAL: Potential reentrancy - external call without guard"] else []) ++
  (if condCallValue src then ["CRITICAL: ETH transfer via call without reentrancy protection"] else []) ++
  (if condTxOrigin src then ["CRITICAL: tx.origin usage - vulnerable to phishing attacks"] else []) ++
  (if condPrivileged src then ["HIGH: Privileged function without access control"] else []) ++
  (if condSelfdestruct src then ["CRITICAL: selfdestruct without access control"] else []) ++
  (if condDelegatecall src then ["CRITICAL: delegatecall without proper validation"] else []) ++
  (if condArith src then ["HIGH: Unchecked arithmetic - potential overflow/underflow"] else []) ++
  (if condUncheckedCall src then ["MEDIUM: Unchecked external call return value"] else []) ++
  (if condTimeDep src then ["MEDIUM: Time-dependent logic - potential front-running"] else []) ++
  (if condLoopCall src then ["MEDIUM: Loop with external calls - gas griefing risk"] else []) ++
  (if condMissingEvents src then ["LOW: Missing event emissions for state changes"] else []) ++
  (if condAssembly src then ["HIGH: Inline assembly - requires careful security review"] else []) ++
  (if condUninitStorage src then ["HIGH: Uninitialized storage pointer"] else []) ++
  (if condFloatingPragma src then ["MEDIUM: Floating pragma - use fixed version for production"] else []) ++
  (if condOutdatedPragma src then ["HIGH: Outdated Solidity version - known vulnerabilities"] else []) ++
  (if condZeroAddr src then ["MEDIUM: Missing zero address validation"] else []) ++
  (if condPayableFn src then ["HIGH: Unprotected payable function"] else []) ++
  (if condTransferSend src then ["MEDIUM: Missing return value check for transfer/send"] else []) ++
  (if condWeakRandom src then ["CRITICAL: Weak randomness source - predictable values"] else []) ++
  (if condDosLoop src then ["MEDIUM: DoS risk - loop with external calls may fail"] else []) ++
  (if condShadowing src then ["LOW: Potential variable shadowing - verify manually"] else [])

/-- The scanner as an ordered battery of independent checks: the fixed,
documented check order paired with the indicator each check emits. -/
def vulnChecks : List ((String → Bool) × String) :=
  [(condReentrancyCall, "CRITICAL: Potential reentrancy - external call without guard"),
   (condCallValue, "CRITICAL: ETH transfer via call without reentrancy protection"),
   (condTxOrigin, "CRITICAL: tx.origin usage - vulnerable to phishing attacks"),
   (condPrivileged, "HIGH: Privileged function without access control"),
   (condSelfdestruct, "CRITICAL: selfdestruct without access control"),
   (condDelegatecall, "CRITICAL: delegatecall without proper validation"),
   (condArith, "HIGH: Unchecked arithmetic - potential overflow/underflow"),
   (condUncheckedCall, "MEDIUM: Unchecked external call return value"),
   (condTimeDep, "MEDIUM: Time-dependent logic - potential front-running"),
   (condLoopCall, "MEDIUM: Loop with external calls - gas griefing risk"),
   (condMissingEvents, "LOW: Missing event emissions for state changes"),
   (condAssembly, "HIGH: Inline assembly - requires careful security review"),
   (condUninitStorage, "HIGH: Uninitialized storage pointer"),
   (condFloatingPragma, "MEDIUM: Floating pragma - use fixed version for production"),
   (condOutdatedPragma, "HIGH: Outdated Solidity version - known vulnerabilities"),
   (condZeroAddr, "MEDIUM: Missing zero address validation"),
   (condPayableFn, "HIGH: Unprotected payable function"),
   (condTransferSend, "MEDIUM: Missing return value check for transfer/send"),
   (condWeakRandom, "CRITICAL: Weak randomness source - predictable values"),
   (condDosLoop, "MEDIUM: DoS risk - loop with external calls may fail"),
   (condShadowing, "LOW: Potential variable shadowing - verify manually")]

/-- Battery semantics: run every check in order, collect the indicators of
the checks that fire.  Checks never suppress each other. -/
def vulnScan (src : String) : List String :=
  vulnChecks.foldr (fun c acc => if c.1 src then c.2 :: acc else acc) []

/-! ### extractMetadata and the compiler-version analysis -/

def pImportDecl : Re := reSeqL [reLit "import", reWsPlus, Re.plusP (reNot ';'), reLit ";"]
def pContractDecl : Re := reSeqL [reLit "contract", reWsPlus, reWordPlus]
def pInterfaceDecl : Re := reSeqL [reLit "interface", reWsPlus, reWordPlus]
def pLibraryDecl : Re := reSeqL [reLit "library", reWsPlus, reWordPlus]

/-- Solidity file metadata, from the SolidityMetadata interface. -/
structure SolidityMetadata where
  pragmas : List String
  imports : List String
  contracts : List String
  interfaces : List String
  libraries : List String
deriving Repr, DecidableEq

/-- Model of extractMetadata from src/src/utils/solidity.utils.ts. -/
def extractMetadata (src : String) : SolidityMetadata :=
  { pragmas := (reGAll pPragmaDecl src).map (fun m => strTrim (String.mk m))
    imports := (reGAll pImportDecl src).map (fun m => strTrim (String.mk m))
    contracts := (reGAll pContractDecl src).map
      (fun m => replaceFirst (String.mk m) "contract " "")
    interfaces := (reGAll pInterfaceDecl src).map
      (fun m => replaceFirst (String.mk m) "interface " "")
    libraries := (reGAll pLibraryDecl src).map
      (fun m => replaceFirst (String.mk m) "library " "") }

def pSolVersion : Re := reSeqL [reLit "solidity", reWsPlus, Re.plusP (reNot ';')]

/-- The orchestrator's per-pragma version text: the capture of the pattern
solidity backslash-s plus ([^;]+), trimmed, with unknown as the fallback. -/
def extractVersion (p : String) : String :=
  match reFind pSolVersion none p.toList with
  | some (m, _) => strTrim (String.mk ((m.drop 8).dropWhile isWs))
  | none => "unknown"

/-- Leftmost match of the pattern 0 backslash-dot (digits) backslash-dot in
the version text, returning the parsed digit group. -/
def majorOf : List Char → Option Nat
  | [] => none
  | c :: cs =>
    (if c == '0' then
      match cs with
      | '.' :: cs' =>
        let (ds, r) := takeRun Char.isDigit cs'
        if ds.isEmpty then none
        else match r with
          | '.' :: _ => some (ds.foldl (fun n d => n * 10 + (d.toNat - 48)) 0)
          | _ => none
      | _ => none
    else none).orElse fun _ => majorOf cs

/-- Is one version string an outdated (major below 8) compiler version per
the orchestrator's check? -/
def versionOutdated (v : String) : Bool :=
  match majorOf v.toList with
  | some mjr => decide (mjr < 8)
  | none => false

/-- Model of detectProtocolType from src/src/utils/solidity.utils.ts. -/
def detectProtocolType (src : String) : List String :=
  (if strIncludes src "transfer(" || strIncludes src "balanceOf(" then ["ERC20"] else []) ++
  (if strIncludes src "ownerOf(" || strIncludes src "tokenURI(" then ["ERC721"] else []) ++
  (if strIncludes src "IVault" || strIncludes src "getPoolTokens" then ["Balancer"] else []) ++
  (if strIncludes src "getReserves" || strIncludes src "UniswapV2" then ["Uniswap"] else []) ++
  (if strIncludes src "AggregatorV3" || strIncludes src "latestRoundData" then ["Chainlink"] else []) ++
  (if strIncludes src "Ownable" || strIncludes src "AccessControl" then ["OpenZeppelin"] else [])

/-! ## Knowledge-base data model (src/src/services/knowledge.service.ts) -/

/-- The metadata key-value map of a knowledge match, modelled with the keys
the pipeline reads; absent keys are none, mirroring unchecked JS access. -/
structure MetadataMap where
  name : Option String := none
  protocol : Option String := none
  category : Option String := none
  loss : Option String := none
  date : Option String := none
  source : Option String := none
  attackVector : Option String := none
  severity : Option String := none
  swc_id : Option String := none
deriving Repr, DecidableEq

/-- One knowledge-base query result (the QueryResult interface). -/
structure QueryResult where
  id : String
  document : String
  md : MetadataMap
  distance : ℚ
deriving Repr, DecidableEq

/-- The result of searchAll: one result list per collection. -/
structure SearchAllRes where
  exploits : List QueryResult
  auditFindings : List QueryResult
  swc : List QueryResult
deriving Repr, DecidableEq

/-! ## Models of src/src/tools/analysis/comprehensive_analysis.ts -/

/-- A formatted query result (the formatResult helper): relevance is the
rounded (1 - distance) * 100 percentage, the excerpt truncates the document
at 300 characters with an ellipsis marker. -/
structure FormattedResult where
  id : String
  relevance : ℤ
  md : MetadataMap
  excerpt : String
deriving Repr, DecidableEq

/-- Model of formatResult. -/
def formatResult (r : QueryResult) : FormattedResult :=
  { id := r.id
    relevance := jsRound ((1 - r.distance) * 100)
    md := r.md
    excerpt := strTake r.document 300 ++
      (if 300 < r.document.length then "..." else "") }

/-- The three aggregation arrays of the knowledge-base query loop. -/
structure AggAcc where
  swc : List FormattedResult
  exploits : List FormattedResult
  audit : List FormattedResult
deriving Repr, DecidableEq

/-- All ids currently held by the three arrays, in the order the loop
builds its existingIds set. -/
def accIds (acc : AggAcc) : List String :=
  acc.swc.map (·.id) ++ acc.exploits.map (·.id) ++ acc.audit.map (·.id)

/-- One collection's merge loop: push the formatted result and record its
id unless the id is already in the running set. -/
def mergeColl (acc : List FormattedResult) (seen : List String) :
    List QueryResult → List FormattedResult × List String
  | [] => (acc, seen)
  | r :: rest =>
    if seen.contains r.id then mergeColl acc seen rest
    else mergeColl (acc ++ [formatResult r]) (seen ++ [r.id]) rest

/-- One iteration of the query loop: rebuild the existingIds set from the
three arrays, then merge the swc, exploits and auditFindings results of
this query in that order, threading the set. -/
def stepQuery (acc : AggAcc) (q : SearchAllRes) : AggAcc :=
  let seen0 := accIds acc
  let (s, seen1) := mergeColl acc.swc seen0 q.swc
  let (e, seen2) := mergeColl acc.exploits seen1 q.exploits
  let (a, _) := mergeColl acc.audit seen2 q.auditFindings
  ⟨s, e, a⟩

/-- The whole aggregation loop over the per-query searchAll results, in
query-submission order. -/
def aggregateRuns (rs : List SearchAllRes) : AggAcc :=
  rs.foldl stepQuery ⟨[], [], []⟩

/-- The knowledgeResults object: each merged array truncated to the
caller's knowledgeLimit. -/
def aggregateKnowledge (rs : List SearchAllRes) (limit : Nat) : AggAcc :=
  let m := aggregateRuns rs
  ⟨m.swc.take limit, m.exploits.take limit, m.audit.take limit⟩

/-! ### Specification-side view of the aggregation, for the refinement
theorems: the flattened stream of collection-tagged matches in processing
order, deduplicated by first occurrence of each id. -/

inductive Coll where
  | swc
  | exploits
  | audit
deriving Repr, DecidableEq

instance : BEq Coll := ⟨fun a b => decide (a = b)⟩

/-- A match tagged with the collection it was returned for. -/
structure Tagged where
  coll : Coll
  res : QueryResult
deriving Repr, DecidableEq

/-- The processing-order stream of one query's results. -/
def queryStream (q : SearchAllRes) : List Tagged :=
  q.swc.map (⟨.swc, ·⟩) ++ q.exploits.map (⟨.exploits, ·⟩) ++
    q.auditFindings.map (⟨.audit, ·⟩)

/-- The processing-order stream of a whole aggregation run. -/
def occStream (rs : List SearchAllRes) : List Tagged :=
  rs.flatMap queryStream

/-- First-occurrence deduplication by id over a tagged stream. -/
def dedupTagged (seen : List String) : List Tagged → List Tagged
  | [] => []
  | t :: rest =>
    if seen.contains t.res.id then dedupTagged seen rest
    else t :: dedupTagged (seen ++ [t.res.id]) rest

/-- First-occurrence deduplication by id over plain query results (the
merge rule shared by the aggregator and the similarity deduplicator). -/
def dedupQR (seen : List String) : List QueryResult → List QueryResult
  | [] => []
  | r :: rest =>
    if seen.contains r.id then dedupQR seen rest
    else r :: dedupQR (seen ++ [r.id]) rest

/-- Restrict a tagged stream to one collection and format the matches. -/
def collOut (c : Coll) (ts : List Tagged) : List FormattedResult :=
  (ts.filter (fun t => t.coll == c)).map (fun t => formatResult t.res)

/-! ### The similarity deduplicator (similar-exploit search) -/

/-- The SimilarExploit display shape built in the similar-exploits step. -/
structure SimilarExploit where
  id : String
  similarity : ℤ
  name : Option String
  protocol : Option String
  category : Option String
  loss : Option String
  date : Option String
  source : Option String
  description : String
  attackVector : Option String
deriving Repr, DecidableEq

/-- Projection of a raw match into the SimilarExploit display shape. -/
def projectSimilar (r : QueryResult) : SimilarExploit :=
  { id := r.id
    similarity := jsRound ((1 - r.distance) * 100)
    name := r.md.name
    protocol := r.md.protocol
    category := r.md.category
    loss := r.md.loss
    date := r.md.date
    source := r.md.source
    description := strTake r.document 500
    attackVector := r.md.attackVector }

/-- The uniqueSimilar JS Map: insert keyed by id only when absent,
preserving insertion order. -/
def mapInsert (m : List (String × QueryResult)) (r : QueryResult) :
    List (String × QueryResult) :=
  if (m.map Prod.fst).contains r.id then m else m ++ [(r.id, r)]

/-- The similar-exploits step of the orchestrator, over an abstract
findSimilarExploits backend: probe with the raw contract code (limit*2 in
comprehensive mode), probe individually with up to three indicators at
fixed limit 3, merge, deduplicate by id via the Map, cap at limit*2 and
project into the display shape. -/
def similarPhase (simBackend : String → Nat → Except String (List QueryResult))
    (content : String) (indicators : List String) (knowledgeLimit : Nat)
    (comprehensiveMode : Bool) : Except String (List SimilarExploit) := do
  let similarFromCode ← simBackend content
    (if comprehensiveMode then knowledgeLimit * 2 else knowledgeLimit)
  let similarFromIndicators ←
    if comprehensiveMode && !indicators.isEmpty then
      (indicators.take 3).foldlM
        (fun acc ind => do pure (acc ++ (← simBackend ind 3))) []
    else pure []
  let allSimilar := similarFromCode ++ similarFromIndicators
  let uniqueSimilar := (allSimilar.foldl mapInsert []).map Prod.snd
  pure ((uniqueSimilar.take (knowledgeLimit * 2)).map projectSimilar)

/-! ### Risk scoring (assessRisk) -/

/-- The security block of the contract analysis. -/
structure SecurityInfo where
  hasReentrancyGuard : Bool
  hasAccessControl : Bool
  hasSafeMath : Bool
  indicators : List String
  critical : Nat
  high : Nat
  medium : Nat
  low : Nat
  privilegedNoAccess : List String
deriving Repr, DecidableEq

/-- The metadata block of the contract analysis. -/
structure MetaInfo where
  contracts : List String
  interfaces : List String
  libraries : List String
  compilerVersions : List String
  hasFloatingPragma : Bool
  hasOutdatedCompiler : Bool
  dependencies : List String
  hasOpenZeppelin : Bool
  hasExternalDependencies : Bool
deriving Repr, DecidableEq

/-- The contract analysis object assembled by the orchestrator. -/
structure ContractAnalysis where
  meta : MetaInfo
  security : SecurityInfo
  totalFunctions : Nat
  externalCount : Nat
  publicCount : Nat
  payableCount : Nat
  viewCount : Nat
  stateChangingCount : Nat
  protocols : List String
  externalFns : List SolidityFunction
  publicFns : List SolidityFunction
deriving Repr, DecidableEq

/-- The knowledgeResults record passed to scoring and recommendations;
empty lists model the missing fields of the empty object when the
knowledge base is disabled. -/
structure KnowledgeResults where
  swc : List FormattedResult := []
  exploits : List FormattedResult := []
  auditFindings : List FormattedResult := []
deriving Repr, DecidableEq

/-- The risk assessment produced by assessRisk. -/
structure RiskAssessment where
  level : String
  score : Nat
  factors : List String
deriving Repr, DecidableEq

/-- The level bucketing at the end of assessRisk. -/
def riskLevelOfScore (score : Nat) : String :=
  if 70 ≤ score then "CRITICAL"
  else if 50 ≤ score then "HIGH"
  else if 30 ≤ score then "MEDIUM"
  else if 10 ≤ score then "LOW"
  else "INFO"

/-- Model of assessRisk: the sequential score additions and factor pushes
of the source, followed by the threshold bucketing. -/
def assessRisk (ca : ContractAnalysis) (kr : KnowledgeResults)
    (similarExploits : List SimilarExploit) : RiskAssessment :=
  let score0 := ca.security.critical * 30 + ca.security.high * 20 +
    ca.security.medium * 10 + ca.security.low * 5
  let score1 := score0 + (if ca.security.hasReentrancyGuard then 0 else 30)
  let factors1 : List String :=
    if ca.security.hasReentrancyGuard then [] else ["Missing reentrancy protection"]
  let score2 := score1 + (if ca.security.hasAccessControl then 0 else 20)
  let factors2 := factors1 ++
    (if ca.security.hasAccessControl then [] else ["Missing access control"])
  let score3 := score2 + (if ca.meta.hasOutdatedCompiler then 25 else 0)
  let factors3 := factors2 ++
    (if ca.meta.hasOutdatedCompiler then ["Outdated Solidity compiler version"] else [])
  let score4 := score3 + (if ca.meta.hasFloatingPragma then 15 else 0)
  let factors4 := factors3 ++
    (if ca.meta.hasFloatingPragma then ["Floating pragma - non-deterministic compilation"] else [])
  let nPriv := ca.security.privilegedNoAccess.length
  let score5 := score4 + (if 0 < nPriv then nPriv * 15 else 0)
  let factors5 := factors4 ++
    (if 0 < nPriv then
      [toString nPriv ++ " privileged functions without access control"] else [])
  let nExp := similarExploits.length
  let score6 := score5 + (if 0 < nExp then nExp * 5 else 0)
  let factors6 := factors5 ++
    (if 0 < nExp then [toString nExp ++ " similar historical exploits found"] else [])
  let criticalSWC := kr.swc.filter (fun s => s.md.severity == some "critical")
  let nSwc := criticalSWC.length
  let score7 := score6 + (if 0 < nSwc then nSwc * 15 else 0)
  let factors7 := factors6 ++
    (if 0 < nSwc then [toString nSwc ++ " critical SWC entries matched"] else [])
  { level := riskLevelOfScore score7, score := score7, factors := factors7 }

/-! ### Recommendation generation (generateRecommendations)

The emoji prefixes of the source strings are rendered here as ASCII tags
(WARN, RED, BOOK, CLIP, OK); the texts are otherwise the source texts. -/

/-- Generic first-occurrence deduplication, the JS Set spread. -/
def dedupFirst [BEq α] : List α → List α :=
  go []
where
  go (seen : List α) : List α → List α
    | [] => []
    | x :: rest =>
      if seen.contains x then go seen rest
      else x :: go (seen ++ [x]) rest

/-- The e.source or unknown access in the exploit-source set (JS
falsiness: an absent or empty source reads as unknown). -/
def sourceOrUnknown (e : SimilarExploit) : String :=
  match e.source with
  | some s => if s == "" then "unknown" else s
  | none => "unknown"

/-- The s.metadata swc_id or s.id access of the SWC category set. -/
def swcCatOf (s : FormattedResult) : String :=
  match s.md.swc_id with
  | some x => if x == "" then s.id else x
  | none => s.id

/-- Model of generateRecommendations: every conditional push of the source
in order, then the fallback when nothing was pushed, then Set
deduplication. -/
def generateRecommendations (ca : ContractAnalysis) (kr : KnowledgeResults)
    (se : List SimilarExploit) : List String :=
  let recs : List String :=
    (if !ca.security.hasReentrancyGuard then
      ["WARN: Add reentrancy protection (ReentrancyGuard or nonReentrant modifier)"] else []) ++
    (if !ca.security.hasAccessControl then
      ["WARN: Implement access control for privileged functions (onlyOwner or AccessControl)"] else []) ++
    (ca.security.indicators.flatMap fun indicator =>
      (if strIncludes indicator "reentrancy" then
        ["RED CRITICAL: Implement checks-effects-interactions pattern",
         "RED CRITICAL: Add reentrancy guard to all external calls"] else []) ++
      (if strIncludes indicator "tx.origin" then
        ["RED CRITICAL: Replace tx.origin with msg.sender for authorization"] else []) ++
      (if strIncludes indicator "delegatecall" then
        ["RED CRITICAL: Validate delegatecall target addresses"] else [])) ++
    (let categories := se.map (·.category)
     (if categories.contains (some "reentrancy") then
       let reentrancyExploits := se.filter (fun e => e.category == some "reentrancy")
       let n := reentrancyExploits.length
       let srcs := String.intercalate ", "
         ((dedupFirst (reentrancyExploits.map (·.source))).map (fun o => o.getD ""))
       [toString n ++ " similar reentrancy exploits found from " ++ srcs ++
          " - review historical attacks",
        "BOOK: Implement checks-effects-interactions pattern"] else []) ++
     (if categories.contains (some "flash-loan") then
       ["BOOK: Implement flash loan attack protections",
        "BOOK: Use TWAP oracles instead of spot prices",
        "BOOK: Add slippage protection for all swaps"] else []) ++
     (if categories.contains (some "oracle-manipulation") then
       ["BOOK: Use multiple oracle sources for price feeds",
        "BOOK: Implement price deviation checks",
        "BOOK: Add time-weighted average price (TWAP) protection"] else []) ++
     (if categories.contains (some "access-control") then
       ["BOOK: Review all privileged functions for proper access control",
        "BOOK: Use role-based access control (OpenZeppelin AccessControl)"] else []) ++
     (if categories.contains (some "logic-error") then
       ["BOOK: Review contract logic for edge cases",
        "BOOK: Add comprehensive unit tests"] else []) ++
     (if categories.contains (some "integer-overflow") then
       ["BOOK: Use SafeMath or Solidity 0.8+ for arithmetic operations"] else [])) ++
    (let sources := se.map sourceOrUnknown
     (if sources.contains "DeFiHackLabs" then
       ["BOOK: DeFiHackLabs exploits matched - review real-world attack patterns"] else []) ++
     (if sources.contains "learn-evm-attacks" then
       ["BOOK: learn-evm-attacks exploits matched - review educational attack reproductions"] else [])) ++
    (if !kr.swc.isEmpty then
      let criticalSWC := kr.swc.filter (fun s => s.md.severity == some "critical")
      let highSWC := kr.swc.filter (fun s => s.md.severity == some "high")
      let ncrit := criticalSWC.length
      let nhigh := highSWC.length
      (if 0 < ncrit then
        ["CLIP: " ++ toString ncrit ++
           " critical SWC/Attack Vector entries matched - review carefully"] else []) ++
      (if 0 < nhigh then
        ["CLIP: " ++ toString nhigh ++
           " high severity SWC/Attack Vector entries matched"] else []) ++
      (let swcCategories := dedupFirstStr (kr.swc.map swcCatOf)
       (if swcCategories.contains "SWC-107" ||
           swcCategories.any (fun i => strIncludes i "107") then
         ["CLIP: SWC-107 (Reentrancy) matched - implement reentrancy guards"] else []) ++
       (if swcCategories.contains "SWC-105" ||
           swcCategories.any (fun i => strIncludes i "105") then
         ["CLIP: SWC-105 (Unprotected Ether Withdrawal) matched - add access control"] else []))
    else [])
  let recs' :=
    if recs.isEmpty then
      ["OK: No immediate security issues detected, but always perform thorough review"]
    else recs
  dedupFirstStr recs'

/-! ## Model of src/src/utils/command.utils.ts -/

/-- Outcome of the underlying execSync call: a clean exit with its stdout,
or a raised error carrying a message and whatever stdout/stderr/status the
error object exposes (status none models an absent exit status, as for a
timeout or signal). -/
inductive ExecOutcome where
  | success (stdout : String)
  | failure (message stdout stderr : String) (status : Option Nat)
deriving Repr, DecidableEq

/-- The error conditions raised by the tool runner. -/
inductive CmdError where
  | toolNotFound (tool hint : String)
  | executionError (message tool : String)
deriving Repr, DecidableEq

/-- The CommandResult record. -/
structure CommandResult where
  success : Bool
  command : String
  stdout : String
  stderr : String
  duration : Nat
  exitCode : Nat
deriving Repr, DecidableEq

/-- Model of executeCommand: throw ToolNotFoundError when the tool is not
installed; on a clean exit return a success record with exit code 0; when
execSync raised but the error object carries non-empty stdout (JS
truthiness), return a record with exit code e.status or 1; otherwise throw
ToolExecutionError. -/
def executeCommand (installed : Bool) (outcome : ExecOutcome) (duration : Nat)
    (cmd : String) (args : List String) (hint : String) :
    Except CmdError CommandResult :=
  if !installed then .error (.toolNotFound cmd hint)
  else
    let full := cmd ++ " " ++ String.intercalate " " args
    match outcome with
    | .success out =>
      .ok { success := true, command := full, stdout := out, stderr := "",
            duration := duration, exitCode := 0 }
    | .failure msg out err status =>
      if out != "" then
        .ok { success := true, command := full, stdout := out, stderr := err,
              duration := duration,
              exitCode := match status with
                | some s => if s == 0 then 1 else s
                | none => 1 }
      else .error (.executionError msg cmd)

/-! ## The comprehensive-analysis orchestrator -/

/-- The extractFunctionContent pattern for a given function name: function
whitespace name ( args ) up-to-brace brace body brace, where the body group
is one-or-more non-brace characters followed by repeated braced segments. -/
def pFnContent (functionName : String) : Re :=
  reSeqL [reLit "function", reWsPlus, reLit functionName, reWsStar, reLit "(",
    Re.star (reNot ')'), reLit ")", Re.star (reNot '{'), reLit "\x7b",
    Re.plusP (reNot '}'),
    Re.star (reSeqL [reLit "\x7b", Re.star (reNot '}'), reLit "\x7d",
      Re.star (reNot '}')]),
    reLit "\x7d"]

/-- Model of extractFunctionContent: the capture is the matched text
between the first opening brace and the final closing brace. -/
def extractFunctionContent (src functionName : String) : Option String :=
  match reFind (pFnContent functionName) none src.toList with
  | some (m, _) =>
    some (String.mk (((m.dropWhile (fun c => !(c == '{'))).drop 1).dropLast))
  | none => none

/-- The privileged-function filter applied to the external functions: the
function body mentions a sensitive verb and no access-control marker (a
null body is falsy and excludes the function). -/
def privilegedPred (content : String) (f : SolidityFunction) : Bool :=
  match extractFunctionContent content f.name with
  | some fnContent =>
    (strIncludes fnContent "transfer" || strIncludes fnContent "withdraw" ||
      strIncludes fnContent "setOwner" || strIncludes fnContent "destroy" ||
      strIncludes fnContent "kill") &&
    !strIncludes fnContent "onlyOwner" && !strIncludes fnContent "AccessControl"
  | none => false

def pQuoted : Re :=
  reSeqL [.cls (fun c => c == '"' || c == '\''),
    Re.plusP (.cls (fun c => !(c == '"' || c == '\''))),
    .cls (fun c => c == '"' || c == '\'')]

/-- The dependency extraction of the orchestrator: the quoted module path
inside the import statement, with the raw import text as fallback. -/
def extractDependency (imp : String) : String :=
  match reFind pQuoted none imp.toList with
  | some (m, _) => String.mk (m.drop 1).dropLast
  | none => imp

/-- Step 1 of the orchestrator: assemble the contractAnalysis object from
the file content, via the solidity utils models above. -/
def mkContractAnalysis (content : String) : ContractAnalysis :=
  let metadata := extractMetadata content
  let fns := extractFunctions content
  let externalFns := fns.filter (fun f => f.visibility == "external")
  let publicFns := fns.filter (fun f => f.visibility == "public")
  let payableFns := fns.filter (fun f => f.mutability == "payable")
  let viewFns := fns.filter (fun f => f.mutability == "view" || f.mutability == "pure")
  let indicators := checkVulnerabilityIndicators content
  let criticalIssues := indicators.filter (fun i => strIncludes i "CRITICAL")
  let highIssues := indicators.filter (fun i => strIncludes i "HIGH")
  let mediumIssues := indicators.filter (fun i => strIncludes i "MEDIUM")
  let lowIssues := indicators.filter (fun i => strIncludes i "LOW")
  let compilerVersions := metadata.pragmas.map extractVersion
  let hasFloatingPragma := compilerVersions.any fun v =>
    strIncludes v "^" || strIncludes v ">=" || strIncludes v "~"
  let hasOutdatedCompiler := compilerVersions.any versionOutdated
  let dependencies := metadata.imports.map extractDependency
  let hasOpenZeppelin := dependencies.any fun d =>
    strIncludes d "openzeppelin" || strIncludes d "OpenZeppelin"
  let privilegedFunctions := externalFns.filter (privilegedPred content)
  { meta :=
      { contracts := metadata.contracts
        interfaces := metadata.interfaces
        libraries := metadata.libraries
        compilerVersions := compilerVersions
        hasFloatingPragma := hasFloatingPragma
        hasOutdatedCompiler := hasOutdatedCompiler
        dependencies := dependencies
        hasOpenZeppelin := hasOpenZeppelin
        hasExternalDependencies := !dependencies.isEmpty }
    security :=
      { hasReentrancyGuard :=
          strIncludes content "nonReentrant" || strIncludes content "ReentrancyGuard"
        hasAccessControl :=
          strIncludes content "onlyOwner" || strIncludes content "AccessControl"
        hasSafeMath :=
          strIncludes content "SafeMath" ||
            compilerVersions.any (fun v => strIncludes v "0.8.")
        indicators := indicators
        critical := criticalIssues.length
        high := highIssues.length
        medium := mediumIssues.length
        low := lowIssues.length
        privilegedNoAccess := privilegedFunctions.map (·.name) }
    totalFunctions := fns.length
    externalCount := externalFns.length
    publicCount := publicFns.length
    payableCount := payableFns.length
    viewCount := viewFns.length
    stateChangingCount :=
      (fns.filter (fun f => !(f.mutability == "view") && !(f.mutability == "pure"))).length
    protocols := detectProtocolType content
    externalFns := externalFns
    publicFns := publicFns }

/-- The sensitive function-name patterns of the query builder. -/
def vulnerablePatterns : List String :=
  ["withdraw", "transfer", "burn", "mint", "approve", "setOwner", "destroy",
   "kill", "upgrade"]

/-- Step 2a: build the query set from the contract analysis: per-indicator
category phrases, protocol names, sensitive function-name phrases, the
comprehensive-mode category set, then the primary query (with the generic
fallback) plus the comprehensive-mode secondary queries. -/
def buildQueries (ca : ContractAnalysis) (comprehensiveMode : Bool) : List String :=
  let queryParts : List String :=
    (ca.security.indicators.flatMap fun indicator =>
      let lower := strToLower indicator
      (if strIncludes lower "reentrancy" then ["reentrancy"] else []) ++
      (if strIncludes lower "access-control" || strIncludes lower "access control" then
        ["access control"] else []) ++
      (if strIncludes lower "tx.origin" then ["tx.origin phishing"] else []) ++
      (if strIncludes lower "delegatecall" then ["delegatecall"] else []) ++
      (if strIncludes lower "overflow" || strIncludes lower "underflow" then
        ["integer overflow"] else []) ++
      (if strIncludes lower "oracle" || strIncludes lower "price" then
        ["oracle manipulation"] else []) ++
      (if strIncludes lower "flash" || strIncludes lower "flashloan" then
        ["flash loan"] else []) ++
      (if strIncludes lower "random" then ["weak randomness"] else []) ++
      (if strIncludes lower "dos" || strIncludes lower "denial" then
        ["denial of service"] else []) ++
      (if strIncludes lower "validation" then ["input validation"] else []) ++
      (if strIncludes lower "logic" then ["logic error"] else []) ++
      (if strIncludes lower "signature" then ["signature"] else []) ++
      (if strIncludes lower "storage" then ["storage"] else []) ++
      (if strIncludes lower "visibility" then ["visibility"] else []) ++
      (if strIncludes lower "selfdestruct" then ["selfdestruct"] else [])) ++
    ca.protocols ++
    (let allFnNames := ca.externalFns.map (·.name) ++ ca.publicFns.map (·.name)
     (vulnerablePatterns.filter fun pat =>
        allFnNames.any fun nm => strIncludes (strToLower nm) (strToLower pat)).map
       fun pat => pat ++ " vulnerability") ++
    (if comprehensiveMode then
      dedupFirstStr (ca.security.indicators.flatMap fun ind =>
        let lower := strToLower ind
        (if strIncludes lower "critical" then ["critical vulnerability"] else []) ++
        (if strIncludes lower "reentrancy" then ["reentrancy attack"] else []) ++
        (if strIncludes lower "access" then ["access control"] else []))
    else [])
  let primaryQuery :=
    if queryParts.isEmpty then "smart contract security vulnerability"
    else String.intercalate " " queryParts
  if comprehensiveMode then
    [primaryQuery] ++ (ca.security.indicators.take 3).map (fun ind => strTake ind 50) ++
      ca.protocols.map (fun p => p ++ " security vulnerability")
  else [primaryQuery]

/-! ### External-tool phase -/

/-- Per-tool status value stored in the externalTools record. -/
inductive ToolStatus where
  | ran (status : String) (output : String)
  | failed (error : String)
  | unavailable (hint : String)
deriving Repr, DecidableEq

/-- Rendering of a raised tool error, the String(e) of the catch blocks. -/
def cmdErrorString : CmdError → String
  | .toolNotFound tool hint => "ToolNotFoundError: " ++ tool ++ " (" ++ hint ++ ")"
  | .executionError msg tool => "ToolExecutionError: " ++ tool ++ ": " ++ msg

/-- The environment for the three external tools: whether each is
installed and what its subprocess run would produce. -/
structure ToolsOracle where
  slitherInstalled : Bool
  slitherOutcome : ExecOutcome
  solhintInstalled : Bool
  solhintOutcome : ExecOutcome
  mythInstalled : Bool
  mythOutcome : ExecOutcome
deriving Repr, DecidableEq

/-- Step 1.5: the external tools block.  Each tool's executeCommand call is
wrapped in its own catch, so a tool failure becomes a failed status and
never escapes.  Slither stores a completed status only when the result has
the success flag; solhint and mythril map the exit code to a status. -/
def externalToolsPhase (tools : ToolsOracle) (p : String)
    (useExternalTools comprehensiveMode : Bool) : List (String × ToolStatus) :=
  if useExternalTools then
    (if tools.slitherInstalled then
      match executeCommand true tools.slitherOutcome 0 "slither" [p, "--json", "-"]
          "pip install slither-analyzer" with
      | .ok r => if r.success then [("slither", .ran "completed" (strTake r.stdout 5000))] else []
      | .error e => [("slither", .failed (cmdErrorString e))]
    else [("slither", .unavailable "pip install slither-analyzer")]) ++
    (if tools.solhintInstalled then
      match executeCommand true tools.solhintOutcome 0 "solhint" [p]
          "npm install -g solhint" with
      | .ok r =>
        [("solhint", .ran (if r.exitCode == 0 then "passed" else "warnings")
          (strTake r.stdout 2000))]
      | .error e => [("solhint", .failed (cmdErrorString e))]
    else [("solhint", .unavailable "npm install -g solhint")]) ++
    (if comprehensiveMode && tools.mythInstalled then
      match executeCommand true tools.mythOutcome 0 "myth"
          ["analyze", p, "--execution-timeout", "60"] "pip install mythril" with
      | .ok r =>
        [("mythril", .ran (if r.exitCode == 0 then "completed" else "warnings")
          (strTake r.stdout 5000))]
      | .error e => [("mythril", .failed (cmdErrorString e))]
    else if comprehensiveMode then [("mythril", .unavailable "pip install mythril")]
    else [])
  else []

/-! ### The analyze handler -/

/-- Caller options of the comprehensive_analysis tool, with their schema
defaults. -/
structure AnalyzeOptions where
  includeKnowledgeBase : Bool := true
  knowledgeLimit : Nat := 10
  includeSimilarExploits : Bool := true
  useExternalTools : Bool := true
  comprehensiveMode : Bool := true
deriving Repr, DecidableEq

/-- The knowledgeBase block of the response. -/
structure KnowledgeBlock where
  queries : KnowledgeResults
  similarExploits : List SimilarExploit
  sourcesUsed : List String
deriving Repr, DecidableEq

/-- The summary rollup of the response. -/
structure AnalysisSummary where
  totalFindings : Nat
  criticalIssues : Nat
  highIssues : Nat
  mediumIssues : Nat
  lowIssues : Nat
  similarExploitsFound : Nat
  knowledgeBaseMatches : Nat
deriving Repr, DecidableEq

/-- The successful response object of the tool. -/
structure AnalyzeReport where
  contract : ContractAnalysis
  externalTools : List (String × ToolStatus)
  knowledgeBase : Option KnowledgeBlock
  riskAssessment : RiskAssessment
  recommendations : List String
  summary : AnalysisSummary
deriving Repr, DecidableEq

/-- A tool response: either the JSON report or the structured error
response produced by the outer catch. -/
inductive ToolResponse where
  | json (report : AnalyzeReport)
  | error (msg details : String)
deriving Repr, DecidableEq

/-- Does the response carry the isError flag? -/
def ToolResponse.isError : ToolResponse → Bool
  | .json _ => false
  | .error _ _ => true

/-- The exploit-source set collected for the summary. -/
def exploitSources (se : List SimilarExploit) (kr : KnowledgeResults) :
    List String :=
  dedupFirstStr
    ((se.filterMap (·.source)).filter (fun s => s != "") ++
      (kr.exploits.filterMap (·.md.source)).filter (fun s => s != ""))

/-- The body of the handler after the file checks, as an Except
computation: an error escaping any awaited knowledge call aborts the body
and reaches the outer catch. -/
def analyzeBody (searchBackend : String → Nat → Except String SearchAllRes)
    (simBackend : String → Nat → Except String (List QueryResult))
    (tools : ToolsOracle) (opts : AnalyzeOptions) (p content : String) :
    Except String AnalyzeReport := do
  let contractAnalysis := mkContractAnalysis content
  let externalTools := externalToolsPhase tools p opts.useExternalTools
    opts.comprehensiveMode
  let (knowledgeResults, similarExploits, knowledgeBlock) ←
    if opts.includeKnowledgeBase then do
      let queries := buildQueries contractAnalysis opts.comprehensiveMode
      let merged ← queries.foldlM
        (fun acc query => do
          let allResults ← searchBackend query
            ((opts.knowledgeLimit + queries.length - 1) / queries.length)
          pure (stepQuery acc allResults))
        (⟨[], [], []⟩ : AggAcc)
      let knowledgeResults : KnowledgeResults :=
        { swc := merged.swc.take opts.knowledgeLimit
          exploits := merged.exploits.take opts.knowledgeLimit
          auditFindings := merged.audit.take opts.knowledgeLimit }
      let similarExploits ←
        if opts.includeSimilarExploits then
          similarPhase simBackend content contractAnalysis.security.indicators
            opts.knowledgeLimit opts.comprehensiveMode
        else pure []
      pure (knowledgeResults, similarExploits,
        some { queries := knowledgeResults
               similarExploits := similarExploits
               sourcesUsed := exploitSources similarExploits knowledgeResults })
    else pure (({} : KnowledgeResults), [], none)
  let recommendations := generateRecommendations contractAnalysis
    knowledgeResults similarExploits
  let riskLevel := assessRisk contractAnalysis knowledgeResults similarExploits
  pure
    { contract := contractAnalysis
      externalTools := externalTools
      knowledgeBase := knowledgeBlock
      riskAssessment := riskLevel
      recommendations := recommendations
      summary :=
        { totalFindings := contractAnalysis.security.indicators.length
          criticalIssues := contractAnalysis.security.critical
          highIssues := contractAnalysis.security.high
          mediumIssues := contractAnalysis.security.medium
          lowIssues := contractAnalysis.security.low
          similarExploitsFound := similarExploits.length
          knowledgeBaseMatches :=
            if opts.includeKnowledgeBase then
              knowledgeResults.exploits.length + knowledgeResults.swc.length +
                knowledgeResults.auditFindings.length
            else 0 } }

/-- The registered tool handler: the body wrapped in the outer try/catch,
which turns any escaped error into the Analysis failed error response. -/
def comprehensiveAnalysisTool
    (searchBackend : String → Nat → Except String SearchAllRes)
    (simBackend : String → Nat → Except String (List QueryResult))
    (tools : ToolsOracle) (opts : AnalyzeOptions) (p content : String) :
    ToolResponse :=
  match analyzeBody searchBackend simBackend tools opts p content with
  | .ok report => .json report
  | .error e => .error "Analysis failed" e

/-! ## Shared lemmas -/

theorem contains_append (l1 l2 : List String) (x : String) :
    (l1 ++ l2).contains x = (l1.contains x || l2.contains x) := by
  induction l1 with
  | nil => simp
  | cons a l ih => simp [List.contains_cons, ih, Bool.or_assoc]

theorem dedupFirstStr_go_spec (l : List String) :
    ∀ seen, (dedupFirstStr.go seen l).Nodup ∧
      ∀ x ∈ dedupFirstStr.go seen l, seen.contains x = false := by
  induction l with
  | nil =>
    intro seen
    exact ⟨List.nodup_nil, fun x hx => absurd hx (List.not_mem_nil x)⟩
  | cons s rest ih =>
    intro seen
    simp only [dedupFirstStr.go]
    by_cases h : seen.contains s = true
    · rw [if_pos h]; exact ih seen
    · rw [if_neg h]
      have h' : seen.contains s = false := Bool.eq_false_iff.mpr h
      obtain ⟨hnd, hmem⟩ := ih (seen ++ [s])
      refine ⟨List.nodup_cons.mpr ⟨?_, hnd⟩, ?_⟩
      · intro hs
        have := hmem s hs
        rw [contains_append] at this
        simp at this
      · intro x hx
        rcases List.mem_cons.mp hx with hx | hx
        · rw [hx]; exact h'
        · have := hmem x hx
          rw [contains_append] at this
          exact (Bool.or_eq_false_iff.mp this).1

theorem dedupFirstStr_nodup (l : List String) : (dedupFirstStr l).Nodup :=
  (dedupFirstStr_go_spec l []).1

theorem dedupFirstStr_ne_nil (l : List String) (h : l ≠ []) :
    dedupFirstStr l ≠ [] := by
  cases l with
  | nil => exact absurd rfl h
  | cons s rest => simp [dedupFirstStr, dedupFirstStr.go]

theorem ite_isEmpty_nonempty (l : List String) (f : String) :
    (if l.isEmpty then [f] else l) ≠ [] := by
  cases l <;> simp

theorem ite_singleton_append {α : Type} (c : Bool) (a : α) (xs : List α) :
    ((if c then [a] else []) ++ xs) = if c then a :: xs else xs := by
  cases c <;> simp

theorem ite_shared_cons_append {α : Type} (c : Bool) (a : α) (xs ys : List α) :
    ((if c then a :: xs else xs) ++ ys) = if c then a :: (xs ++ ys) else xs ++ ys := by
  cases c <;> simp

/-! ## Claim C8: the heuristic scanner is a pure, total, fixed-order
battery of checks -/

set_option maxHeartbeats 2000000 in
/-- C8: the heuristic indicator scan is a pure, total function of the
source text: it equals the fixed ordered battery vulnChecks run in order
(each check independently contributing its indicator), hence two calls on
identical text return the identical list in identical order, an arbitrary
text always yields a list, and a text where no pattern matches (such as
the empty text) yields the empty list rather than an error. -/
theorem scanner_is_fixed_battery :
    (∀ src, checkVulnerabilityIndicators src = vulnScan src) ∧
    checkVulnerabilityIndicators "" = [] := by
  constructor
  · intro src
    simp only [checkVulnerabilityIndicators, vulnScan, vulnChecks,
      List.foldr_cons, List.foldr_nil, List.append_assoc, ite_singleton_append,
      ite_shared_cons_append, List.nil_append, List.append_nil, List.cons_append]
  · decide

/-! ## Claim C3: the risk score is the exact additive point model -/

set_option maxHeartbeats 2000000 in
/-- C3: assessRisk computes exactly the additive sum: 30 per CRITICAL
indicator, 20 per HIGH, 10 per MEDIUM, 5 per LOW (uncapped), plus 30 when
no reentrancy-guard signature (nonReentrant/ReentrancyGuard) occurs in the
source, plus 20 when no access-control signature (onlyOwner/AccessControl)
occurs, plus 25 when some pragma resolves to a major version below 8, plus
15 when some pragma is floating, plus 15 per privileged external function
lacking access control, plus 5 per similar exploit, plus 15 per
critical-severity SWC match; the second half ties each flag and count to
its derivation from the source text in the orchestrator. -/
theorem risk_score_additive :
    (∀ (ca : ContractAnalysis) (kr : KnowledgeResults) (se : List SimilarExploit),
      (assessRisk ca kr se).score =
        ca.security.critical * 30 + ca.security.high * 20 +
        ca.security.medium * 10 + ca.security.low * 5 +
        (if ca.security.hasReentrancyGuard then 0 else 30) +
        (if ca.security.hasAccessControl then 0 else 20) +
        (if ca.meta.hasOutdatedCompiler then 25 else 0) +
        (if ca.meta.hasFloatingPragma then 15 else 0) +
        ca.security.privilegedNoAccess.length * 15 +
        se.length * 5 +
        (kr.swc.filter (fun s => s.md.severity == some "critical")).length * 15) ∧
    (∀ content,
      (mkContractAnalysis content).security.hasReentrancyGuard =
        (strIncludes content "nonReentrant" || strIncludes content "ReentrancyGuard") ∧
      (mkContractAnalysis content).security.hasAccessControl =
        (strIncludes content "onlyOwner" || strIncludes content "AccessControl") ∧
      (mkContractAnalysis content).meta.hasOutdatedCompiler =
        (((extractMetadata content).pragmas.map extractVersion).any versionOutdated) ∧
      (mkContractAnalysis content).meta.hasFloatingPragma =
        (((extractMetadata content).pragmas.map extractVersion).any fun v =>
          strIncludes v "^" || strIncludes v ">=" || strIncludes v "~") ∧
      (mkContractAnalysis content).security.critical =
        ((checkVulnerabilityIndicators content).filter
          (fun i => strIncludes i "CRITICAL")).length ∧
      (mkContractAnalysis content).security.high =
        ((checkVulnerabilityIndicators content).filter
          (fun i => strIncludes i "HIGH")).length ∧
      (mkContractAnalysis content).security.medium =
        ((checkVulnerabilityIndicators content).filter
          (fun i => strIncludes i "MEDIUM")).length ∧
      (mkContractAnalysis content).security.low =
        ((checkVulnerabilityIndicators content).filter
          (fun i => strIncludes i "LOW")).length ∧
      (mkContractAnalysis content).security.privilegedNoAccess =
        ((((extractFunctions content).filter (fun f => f.visibility == "external")).filter
          (privilegedPred content)).map (·.name))) := by
  constructor
  · intro ca kr se
    simp only [assessRisk]
    split_ifs <;> omega
  · intro content
    refine ⟨?_, ?_, ?_, ?_, ?_, ?_, ?_, ?_, ?_⟩ <;> simp only [mkContractAnalysis]

/-! ## Claim C4: the risk level is the fixed threshold bucketing -/

/-- C4: the discrete risk level is the fixed threshold bucket of the
score: at least 70 is CRITICAL, at least 50 is HIGH, at least 30 is
MEDIUM, at least 10 is LOW, below 10 is INFO; the concrete boundary
values 70, 69, 50, 49, 30, 29, 10, 9 land as the spec states, and
assessRisk assigns exactly this bucket of its own score. -/
theorem risk_level_thresholds :
    (∀ (ca : ContractAnalysis) (kr : KnowledgeResults) (se : List SimilarExploit),
      (assessRisk ca kr se).level = riskLevelOfScore (assessRisk ca kr se).score) ∧
    (∀ s, 70 ≤ s → riskLevelOfScore s = "CRITICAL") ∧
    (∀ s, 50 ≤ s → s < 70 → riskLevelOfScore s = "HIGH") ∧
    (∀ s, 30 ≤ s → s < 50 → riskLevelOfScore s = "MEDIUM") ∧
    (∀ s, 10 ≤ s → s < 30 → riskLevelOfScore s = "LOW") ∧
    (∀ s, s < 10 → riskLevelOfScore s = "INFO") ∧
    riskLevelOfScore 70 = "CRITICAL" ∧ riskLevelOfScore 69 = "HIGH" ∧
    riskLevelOfScore 50 = "HIGH" ∧ riskLevelOfScore 49 = "MEDIUM" ∧
    riskLevelOfScore 30 = "MEDIUM" ∧ riskLevelOfScore 29 = "LOW" ∧
    riskLevelOfScore 10 = "LOW" ∧ riskLevelOfScore 9 = "INFO" := by
  refine ⟨fun ca kr se => rfl, ?_, ?_, ?_, ?_, ?_, rfl, rfl, rfl, rfl, rfl, rfl, rfl, rfl⟩ <;>
    (intro s h
     first
       | (intro h'
          unfold riskLevelOfScore
          split_ifs <;> first | rfl | omega)
       | (unfold riskLevelOfScore
          split_ifs <;> first | rfl | omega))

/-- Witness for C4: the threshold implications discharged at the concrete
boundary scores. -/
theorem risk_level_thresholds_witness :
    riskLevelOfScore 70 = "CRITICAL" ∧ riskLevelOfScore 69 = "HIGH" ∧
    riskLevelOfScore 9 = "INFO" :=
  ⟨risk_level_thresholds.2.1 70 (by decide),
   risk_level_thresholds.2.2.1 69 (by decide) (by decide),
   risk_level_thresholds.2.2.2.2.2.1 9 (by decide)⟩

/-! ## Claim C7: recommendations are deduplicated and never empty -/

set_option maxHeartbeats 2000000 in
/-- C7: for every contract analysis, knowledge-results record and
similar-exploit list the recommendation generator returns a list with no
duplicate strings that is never empty, and on inputs where no remediation
condition triggers (a guarded, access-controlled contract with no
indicators and empty knowledge inputs) it returns exactly the single
fallback review message. -/
theorem recommendations_nodup_nonempty :
    (∀ (ca : ContractAnalysis) (kr : KnowledgeResults) (se : List SimilarExploit),
      (generateRecommendations ca kr se).Nodup ∧
        generateRecommendations ca kr se ≠ []) ∧
    generateRecommendations (mkContractAnalysis "nonReentrant onlyOwner") {} [] =
      ["OK: No immediate security issues detected, but always perform thorough review"] := by
  constructor
  · intro ca kr se
    constructor
    · exact dedupFirstStr_nodup _
    · exact dedupFirstStr_ne_nil _ (ite_isEmpty_nonempty _ _)
  · decide

/-! ## Claim C9: the external tool runner's error conditions -/

/-- C9: executeCommand raises the not-found condition when the tool is not
installed; a clean subprocess exit returns a result record with exit code
0; a raised subprocess error carrying non-empty stdout is returned as a
result record with that (nonzero) exit status rather than raised; a raised
error with no usable stdout becomes the execution-error condition. -/
theorem executeCommand_conditions :
    (∀ outcome dur cmd args hint,
      executeCommand false outcome dur cmd args hint =
        .error (.toolNotFound cmd hint)) ∧
    (∀ out dur cmd args hint,
      executeCommand true (.success out) dur cmd args hint =
        .ok { success := true, command := cmd ++ " " ++ String.intercalate " " args,
              stdout := out, stderr := "", duration := dur, exitCode := 0 }) ∧
    (∀ msg out err s dur cmd args hint, out ≠ "" → s ≠ 0 →
      executeCommand true (.failure msg out err (some s)) dur cmd args hint =
        .ok { success := true, command := cmd ++ " " ++ String.intercalate " " args,
              stdout := out, stderr := err, duration := dur, exitCode := s }) ∧
    (∀ msg err s dur cmd args hint,
      executeCommand true (.failure msg "" err s) dur cmd args hint =
        .error (.executionError msg cmd)) := by
  refine ⟨fun outcome dur cmd args hint => rfl, fun out dur cmd args hint => rfl,
    ?_, fun msg err s dur cmd args hint => rfl⟩
  intro msg out err s dur cmd args hint hout hs
  simp only [executeCommand, Bool.not_true, Bool.false_eq_true, if_false]
  rw [if_pos (by simpa using hout)]
  simp [hs]

/-- Witness for C9: the nonzero-exit-with-stdout case evaluated at a
concrete run. -/
theorem executeCommand_conditions_witness :
    executeCommand true (.failure "boom" "report" "warn" (some 3)) 7 "solhint"
        ["a.sol"] "npm install -g solhint" =
      .ok { success := true, command := "solhint a.sol", stdout := "report",
            stderr := "warn", duration := 7, exitCode := 3 } := by
  have h := executeCommand_conditions.2.2.1 "boom" "report" "warn" 3 7 "solhint"
    ["a.sol"] "npm install -g solhint" (by decide) (by decide)
  simpa using h

/-! ## Claim C10: visibility and mutability defaulting in extractFunctions -/

/-- C10: a matched function declaration with no explicit visibility keyword
is assigned internal and one with no explicit mutability keyword is
assigned nonpayable (the defaulting of buildFn); consequently a function
with the internal default is never in the external or public filters of
the contract summary, one with the nonpayable default is never in the
payable or view filters, and no such function can be classified privileged,
since every member of any filtering of the external functions has external
visibility. -/
theorem extractFunctions_defaulting :
    (∀ name mtb line, (buildFn name none mtb line).visibility = "internal") ∧
    (∀ name vis line, (buildFn name vis none line).mutability = "nonpayable") ∧
    (∀ src f, f ∈ extractFunctions src → f.visibility = "internal" →
      f ∉ (extractFunctions src).filter (fun g => g.visibility == "external") ∧
      f ∉ (extractFunctions src).filter (fun g => g.visibility == "public")) ∧
    (∀ src f, f ∈ extractFunctions src → f.mutability = "nonpayable" →
      f ∉ (extractFunctions src).filter (fun g => g.mutability == "payable") ∧
      f ∉ (extractFunctions src).filter
        (fun g => g.mutability == "view" || g.mutability == "pure")) ∧
    (∀ (pred : SolidityFunction → Bool) src f,
      f ∈ ((extractFunctions src).filter
        (fun g => g.visibility == "external")).filter pred →
      f.visibility = "external") := by
  refine ⟨fun name mtb line => rfl, fun name vis line => rfl, ?_, ?_, ?_⟩
  · intro src f _ hvis
    constructor <;>
      (intro hmem
       have := (List.mem_filter.mp hmem).2
       simp [hvis] at this)
  · intro src f _ hmut
    constructor <;>
      (intro hmem
       have := (List.mem_filter.mp hmem).2
       simp [hmut] at this)
  · intro pred src f hmem
    have h1 := (List.mem_filter.mp hmem).1
    have h2 := (List.mem_filter.mp h1).2
    simpa using h2

/-- Witness for C10: a declaration with no visibility and no mutability
keyword is extracted with the internal/nonpayable defaults and excluded
from every summary filter. -/
theorem extractFunctions_defaulting_witness :
    (buildFn "f" none none 1).visibility = "internal" ∧
    buildFn "f" none none 1 ∈ extractFunctions "function f() \x7b\x7d" ∧
    buildFn "f" none none 1 ∉
      (extractFunctions "function f() \x7b\x7d").filter
        (fun g => g.visibility == "external") := by
  refine ⟨extractFunctions_defaulting.1 "f" none 1, by decide, ?_⟩
  exact (extractFunctions_defaulting.2.2.1 "function f() \x7b\x7d" (buildFn "f" none none 1)
    (by decide) rfl).1

/-! ## Claim C6: the similarity deduplicator -/

theorem dedupQR_go_spec (l : List QueryResult) :
    ∀ seen, ((dedupQR seen l).map (·.id)).Nodup ∧
      ∀ x ∈ (dedupQR seen l).map (·.id), seen.contains x = false := by
  induction l with
  | nil =>
    intro seen
    exact ⟨List.nodup_nil, by simp [dedupQR]⟩
  | cons r rest ih =>
    intro seen
    simp only [dedupQR]
    by_cases h : seen.contains r.id = true
    · rw [if_pos h]; exact ih seen
    · rw [if_neg h]
      have h' : seen.contains r.id = false := Bool.eq_false_iff.mpr h
      obtain ⟨hnd, hmem⟩ := ih (seen ++ [r.id])
      refine ⟨?_, ?_⟩
      · simp only [List.map_cons]
        refine List.nodup_cons.mpr ⟨?_, hnd⟩
        intro hs
        have := hmem _ hs
        rw [contains_append] at this
        simp at this
      · intro x hx
        simp only [List.map_cons] at hx
        rcases List.mem_cons.mp hx with hx | hx
        · rw [hx]; exact h'
        · have := hmem x hx
          rw [contains_append] at this
          exact (Bool.or_eq_false_iff.mp this).1

theorem foldl_mapInsert_spec (rs : List QueryResult) :
    ∀ (d : List QueryResult),
      ((rs.foldl mapInsert (d.map fun r => (r.id, r))).map Prod.snd) =
        d ++ dedupQR (d.map (·.id)) rs := by
  induction rs with
  | nil => intro d; simp [dedupQR, Function.comp_def]
  | cons r rest ih =>
    intro d
    have hfst : ((d.map fun r => (r.id, r)).map Prod.fst) = d.map (·.id) := by
      simp [List.map_map]
    simp only [List.foldl_cons, mapInsert, hfst]
    by_cases h : (d.map (·.id)).contains r.id = true
    · rw [if_pos h]
      have hr : dedupQR (d.map (·.id)) (r :: rest) = dedupQR (d.map (·.id)) rest := by
        simp only [dedupQR]; rw [if_pos h]
      rw [hr]
      exact ih d
    · rw [if_neg h]
      have hpair : (d.map fun r => (r.id, r)) ++ [(r.id, r)] =
          (d ++ [r]).map fun r => (r.id, r) := by
        simp
      rw [hpair, ih (d ++ [r])]
      have hr : dedupQR (d.map (·.id)) (r :: rest) =
          r :: dedupQR (d.map (·.id) ++ [r.id]) rest := by
        simp only [dedupQR]; rw [if_neg h]
      rw [hr]
      simp [List.append_assoc]

theorem similar_foldlM (b : String → Nat → List QueryResult) (l : List String) :
    ∀ init : List QueryResult,
      (l.foldlM (fun acc ind => do
        pure (acc ++
          (← (fun s n => (Except.ok (b s n) : Except String (List QueryResult))) ind 3)))
        init) =
      Except.ok (init ++ l.flatMap fun i => b i 3) := by
  induction l with
  | nil =>
    intro init
    show Except.ok init = _
    simp
  | cons a l ih =>
    intro init
    rw [List.foldlM_cons]
    show (l.foldlM _ (init ++ b a 3) : Except String (List QueryResult)) = _
    rw [ih (init ++ b a 3)]
    simp [List.append_assoc]

/-- C6: in comprehensive mode the similar-exploit search issues the raw
source probe with limit*2 capacity and up to three per-indicator probes at
fixed limit 3, merges the returned matches in probe order, deduplicates by
id with the first occurrence winning (the shared dedupQR rule), caps the
result at limit*2 and projects each match into the SimilarExploit display
shape; the final list has pairwise distinct ids and length at most
limit*2. -/
theorem similar_probe_merge_spec
    (b : String → Nat → List QueryResult) (content : String)
    (indicators : List String) (limit : Nat) :
    similarPhase (fun s n => .ok (b s n)) content indicators limit true =
        .ok (((dedupQR []
            (b content (limit * 2) ++
              (indicators.take 3).flatMap fun ind => b ind 3)).take
          (limit * 2)).map projectSimilar) ∧
      ((((dedupQR []
            (b content (limit * 2) ++
              (indicators.take 3).flatMap fun ind => b ind 3)).take
          (limit * 2)).map projectSimilar).map (·.id)).Nodup ∧
      (((dedupQR []
            (b content (limit * 2) ++
              (indicators.take 3).flatMap fun ind => b ind 3)).take
          (limit * 2)).map projectSimilar).length ≤ limit * 2 := by
  refine ⟨?_, ?_, ?_⟩
  · have hmap : ∀ rs : List QueryResult,
        (rs.foldl mapInsert []).map Prod.snd = dedupQR [] rs := by
      intro rs
      have := foldl_mapInsert_spec rs []
      simpa using this
    cases indicators with
    | nil =>
      have h0 : similarPhase (fun s n => .ok (b s n)) content [] limit true =
          .ok (((((b content (limit * 2)) ++ []).foldl mapInsert []).map
            Prod.snd |>.take (limit * 2)).map projectSimilar) := rfl
      rw [h0]
      simp only [List.append_nil, List.take_nil, List.flatMap_nil, hmap]
    | cons i0 irest =>
      have h1 : similarPhase (fun s n => .ok (b s n)) content (i0 :: irest) limit true =
          Bind.bind (((i0 :: irest).take 3).foldlM (fun acc ind => do
              pure (acc ++
                (← (fun s n => (Except.ok (b s n) : Except String (List QueryResult))) ind 3)))
            [])
            (fun y => Except.ok ((((b content (limit * 2) ++ y).foldl
              mapInsert []).map Prod.snd |>.take (limit * 2)).map projectSimilar)) := rfl
      rw [h1, similar_foldlM b ((i0 :: irest).take 3) []]
      show Except.ok _ = _
      simp only [List.nil_append, hmap]
  · have h1 : ((((dedupQR []
          (b content (limit * 2) ++
            (indicators.take 3).flatMap fun ind => b ind 3)).take
        (limit * 2)).map projectSimilar).map (·.id)) =
        (((dedupQR []
          (b content (limit * 2) ++
            (indicators.take 3).flatMap fun ind => b ind 3)).map (·.id)).take
        (limit * 2)) := by
      simp [List.map_map, List.map_take, Function.comp_def, projectSimilar]
    rw [h1]
    exact (dedupQR_go_spec _ []).1.sublist (List.take_sublist _ _)
  · simp [List.length_take]

/-! ## Claims C2 and C5: the multi-query aggregation -/

/-- Two id sets agreeing on membership. -/
def SeenEquiv (s s' : List String) : Prop := ∀ x, s.contains x = s'.contains x

theorem SeenEquiv.append {s s' : List String} (h : SeenEquiv s s')
    (t : List String) : SeenEquiv (s ++ t) (s' ++ t) := by
  intro x
  rw [contains_append, contains_append, h x]

theorem SeenEquiv.symm' {s s' : List String} (h : SeenEquiv s s') :
    SeenEquiv s' s := fun x => (h x).symm

theorem dedupQR_congr (rs : List QueryResult) :
    ∀ s s', SeenEquiv s s' → dedupQR s rs = dedupQR s' rs := by
  induction rs with
  | nil => intro s s' _; rfl
  | cons r rest ih =>
    intro s s' h
    simp only [dedupQR]
    by_cases hc : s.contains r.id = true
    · rw [if_pos hc, if_pos (by rw [← h r.id]; exact hc)]
      exact ih s s' h
    · rw [if_neg hc, if_neg (by rw [← h r.id]; exact hc)]
      rw [ih (s ++ [r.id]) (s' ++ [r.id]) (h.append [r.id])]

theorem mergeColl_spec (rs : List QueryResult) :
    ∀ acc seen, mergeColl acc seen rs =
      (acc ++ (dedupQR seen rs).map formatResult,
       seen ++ (dedupQR seen rs).map (·.id)) := by
  induction rs with
  | nil => intro acc seen; simp [mergeColl, dedupQR]
  | cons r rest ih =>
    intro acc seen
    by_cases hc : seen.contains r.id = true
    · have hd : dedupQR seen (r :: rest) = dedupQR seen rest := by
        simp only [dedupQR]; rw [if_pos hc]
      have hm : mergeColl acc seen (r :: rest) = mergeColl acc seen rest := by
        simp only [mergeColl]; rw [if_pos hc]
      rw [hd, hm]
      exact ih acc seen
    · have hd : dedupQR seen (r :: rest) = r :: dedupQR (seen ++ [r.id]) rest := by
        simp only [dedupQR]; rw [if_neg hc]
      have hm : mergeColl acc seen (r :: rest) =
          mergeColl (acc ++ [formatResult r]) (seen ++ [r.id]) rest := by
        simp only [mergeColl]; rw [if_neg hc]
      rw [hd, hm, ih (acc ++ [formatResult r]) (seen ++ [r.id])]
      simp [List.append_assoc]

theorem dedupTagged_append (ys xs : List Tagged) :
    ∀ seen, dedupTagged seen (xs ++ ys) =
      dedupTagged seen xs ++
        dedupTagged (seen ++ (dedupTagged seen xs).map (fun t => t.res.id)) ys := by
  induction xs with
  | nil => intro seen; simp [dedupTagged]
  | cons t xs ih =>
    intro seen
    simp only [List.cons_append, dedupTagged]
    by_cases hc : seen.contains t.res.id = true
    · rw [if_pos hc, if_pos hc]
      exact ih seen
    · rw [if_neg hc, if_neg hc]
      show t :: dedupTagged (seen ++ [t.res.id]) (xs ++ ys) = _
      rw [ih (seen ++ [t.res.id])]
      simp [List.append_assoc]

theorem dedupTagged_map (c : Coll) (qs : List QueryResult) :
    ∀ seen, dedupTagged seen (qs.map fun r => ⟨c, r⟩) =
      (dedupQR seen qs).map fun r => (⟨c, r⟩ : Tagged) := by
  induction qs with
  | nil => intro seen; rfl
  | cons r qs ih =>
    intro seen
    simp only [List.map_cons, dedupTagged, dedupQR]
    by_cases hc : seen.contains r.id = true
    · rw [if_pos hc, if_pos hc]
      exact ih seen
    · rw [if_neg hc, if_neg hc, ih (seen ++ [r.id])]
      rfl

theorem dedupTagged_congr (ts : List Tagged) :
    ∀ s s', SeenEquiv s s' → dedupTagged s ts = dedupTagged s' ts := by
  induction ts with
  | nil => intro s s' _; rfl
  | cons t ts ih =>
    intro s s' h
    simp only [dedupTagged]
    by_cases hc : s.contains t.res.id = true
    · rw [if_pos hc, if_pos (by rw [← h t.res.id]; exact hc)]
      exact ih s s' h
    · rw [if_neg hc, if_neg (by rw [← h t.res.id]; exact hc)]
      rw [ih (s ++ [t.res.id]) (s' ++ [t.res.id]) (h.append [t.res.id])]

theorem dedupTagged_go_spec (ts : List Tagged) :
    ∀ seen, ((dedupTagged seen ts).map (fun t => t.res.id)).Nodup ∧
      ∀ x ∈ (dedupTagged seen ts).map (fun t => t.res.id),
        seen.contains x = false := by
  induction ts with
  | nil =>
    intro seen
    exact ⟨List.nodup_nil, by simp [dedupTagged]⟩
  | cons t rest ih =>
    intro seen
    simp only [dedupTagged]
    by_cases h : seen.contains t.res.id = true
    · rw [if_pos h]; exact ih seen
    · rw [if_neg h]
      have h' : seen.contains t.res.id = false := Bool.eq_false_iff.mpr h
      obtain ⟨hnd, hmem⟩ := ih (seen ++ [t.res.id])
      refine ⟨?_, ?_⟩
      · simp only [List.map_cons]
        refine List.nodup_cons.mpr ⟨?_, hnd⟩
        intro hs
        have := hmem _ hs
        rw [contains_append] at this
        simp at this
      · intro x hx
        simp only [List.map_cons] at hx
        rcases List.mem_cons.mp hx with hx | hx
        · rw [hx]; exact h'
        · have := hmem x hx
          rw [contains_append] at this
          exact (Bool.or_eq_false_iff.mp this).1

theorem collBeq (a b : Coll) : (a == b) = decide (a = b) := rfl

theorem collOut_append (c : Coll) (ts1 ts2 : List Tagged) :
    collOut c (ts1 ++ ts2) = collOut c ts1 ++ collOut c ts2 := by
  simp [collOut, List.filter_append]

theorem collOut_map_same (c : Coll) (qs : List QueryResult) :
    collOut c (qs.map fun r => ⟨c, r⟩) = qs.map formatResult := by
  simp [collOut, List.filter_map, Function.comp_def, collBeq, List.map_map]

theorem collOut_map_other (c c' : Coll) (h : ¬ c' = c) (qs : List QueryResult) :
    collOut c (qs.map fun r => ⟨c', r⟩) = [] := by
  simp [collOut, List.filter_map, Function.comp_def, collBeq, h]

theorem tagged_ids_map (c : Coll) (qs : List QueryResult) :
    ((qs.map fun r => (⟨c, r⟩ : Tagged)).map (fun t => t.res.id)) =
      qs.map (·.id) := by
  simp [List.map_map, Function.comp_def]

theorem format_ids_map (qs : List QueryResult) :
    ((qs.map formatResult).map (·.id)) = qs.map (·.id) := by
  simp [List.map_map, Function.comp_def, formatResult]

theorem stepQuery_spec (acc : AggAcc) (seen : List String) (q : SearchAllRes)
    (h : SeenEquiv seen (accIds acc)) :
    stepQuery acc q =
      ⟨acc.swc ++ collOut .swc (dedupTagged seen (queryStream q)),
       acc.exploits ++ collOut .exploits (dedupTagged seen (queryStream q)),
       acc.audit ++ collOut .audit (dedupTagged seen (queryStream q))⟩ ∧
    SeenEquiv (seen ++ (dedupTagged seen (queryStream q)).map (fun t => t.res.id))
      (accIds (stepQuery acc q)) := by
  have hswc : dedupQR (accIds acc) q.swc = dedupQR seen q.swc :=
    dedupQR_congr _ _ _ h.symm'
  have hexp : dedupQR (accIds acc ++ (dedupQR seen q.swc).map (·.id)) q.exploits =
      dedupQR (seen ++ (dedupQR seen q.swc).map (·.id)) q.exploits :=
    dedupQR_congr _ _ _ (h.symm'.append _)
  have haud : dedupQR (accIds acc ++ (dedupQR seen q.swc).map (·.id) ++
        (dedupQR (seen ++ (dedupQR seen q.swc).map (·.id)) q.exploits).map (·.id))
        q.auditFindings =
      dedupQR (seen ++ (dedupQR seen q.swc).map (·.id) ++
        (dedupQR (seen ++ (dedupQR seen q.swc).map (·.id)) q.exploits).map (·.id))
        q.auditFindings :=
    dedupQR_congr _ _ _ ((h.symm'.append _).append _)
  have hstep : stepQuery acc q =
      ⟨acc.swc ++ (dedupQR seen q.swc).map formatResult,
       acc.exploits ++
         (dedupQR (seen ++ (dedupQR seen q.swc).map (·.id)) q.exploits).map
           formatResult,
       acc.audit ++
         (dedupQR (seen ++ (dedupQR seen q.swc).map (·.id) ++
           (dedupQR (seen ++ (dedupQR seen q.swc).map (·.id)) q.exploits).map (·.id))
           q.auditFindings).map formatResult⟩ := by
    simp only [stepQuery, mergeColl_spec]
    rw [hswc, hexp, haud]
  have hqs : queryStream q =
      q.swc.map (fun r => (⟨.swc, r⟩ : Tagged)) ++
        (q.exploits.map (fun r => (⟨.exploits, r⟩ : Tagged)) ++
         q.auditFindings.map (fun r => (⟨.audit, r⟩ : Tagged))) := by
    simp [queryStream, List.append_assoc]
  have hQdec : dedupTagged seen (queryStream q) =
      (dedupQR seen q.swc).map (fun r => (⟨.swc, r⟩ : Tagged)) ++
        ((dedupQR (seen ++ (dedupQR seen q.swc).map (·.id)) q.exploits).map
            (fun r => (⟨.exploits, r⟩ : Tagged)) ++
         (dedupQR (seen ++ (dedupQR seen q.swc).map (·.id) ++
             (dedupQR (seen ++ (dedupQR seen q.swc).map (·.id)) q.exploits).map
               (·.id)) q.auditFindings).map
            (fun r => (⟨.audit, r⟩ : Tagged))) := by
    rw [hqs, dedupTagged_append, dedupTagged_map, tagged_ids_map,
        dedupTagged_append, dedupTagged_map, tagged_ids_map, dedupTagged_map]
  constructor
  · rw [hstep, hQdec]
    simp only [collOut_append]
    rw [collOut_map_same, collOut_map_same, collOut_map_same,
        collOut_map_other Coll.swc Coll.exploits (by decide),
        collOut_map_other Coll.swc Coll.audit (by decide),
        collOut_map_other Coll.exploits Coll.swc (by decide),
        collOut_map_other Coll.exploits Coll.audit (by decide),
        collOut_map_other Coll.audit Coll.swc (by decide),
        collOut_map_other Coll.audit Coll.exploits (by decide)]
    simp
  · intro x
    rw [hstep, hQdec]
    simp only [accIds, List.map_append, tagged_ids_map, format_ids_map,
      contains_append]
    rw [h x]
    simp only [accIds, contains_append]
    rw [Bool.eq_iff_iff]
    simp only [Bool.or_eq_true]
    tauto

theorem foldl_stepQuery_spec (rs : List SearchAllRes) :
    ∀ acc seen, SeenEquiv seen (accIds acc) →
      rs.foldl stepQuery acc =
        ⟨acc.swc ++ collOut .swc (dedupTagged seen (occStream rs)),
         acc.exploits ++ collOut .exploits (dedupTagged seen (occStream rs)),
         acc.audit ++ collOut .audit (dedupTagged seen (occStream rs))⟩ := by
  induction rs with
  | nil =>
    intro acc seen _
    simp [occStream, dedupTagged, collOut]
  | cons q rs ih =>
    intro acc seen h
    simp only [List.foldl_cons]
    obtain ⟨hstep, hequiv⟩ := stepQuery_spec acc seen q h
    rw [ih (stepQuery acc q)
      (seen ++ (dedupTagged seen (queryStream q)).map (fun t => t.res.id)) hequiv]
    have hocc : occStream (q :: rs) = queryStream q ++ occStream rs := by
      simp [occStream]
    rw [hocc, dedupTagged_append, hstep]
    simp [collOut_append, List.append_assoc]

theorem aggregateRuns_spec (rs : List SearchAllRes) :
    aggregateRuns rs =
      ⟨collOut .swc (dedupTagged [] (occStream rs)),
       collOut .exploits (dedupTagged [] (occStream rs)),
       collOut .audit (dedupTagged [] (occStream rs))⟩ := by
  have h := foldl_stepQuery_spec rs ⟨[], [], []⟩ [] (fun _ => rfl)
  simpa [aggregateRuns] using h

theorem collOut_ids (c : Coll) (ts : List Tagged) :
    ((collOut c ts).map (·.id)) =
      ((ts.filter fun t => t.coll == c).map fun t => t.res.id) := by
  simp [collOut, List.map_map, Function.comp_def, formatResult]

theorem collOut_ids_nodup (c : Coll) (ts : List Tagged)
    (h : (ts.map fun t => t.res.id).Nodup) :
    ((collOut c ts).map (·.id)).Nodup := by
  rw [collOut_ids]
  exact h.sublist ((List.filter_sublist _).map _)

/-- C5: the refinement of the whole aggregation: each collection's merged
output is exactly the first-occurrence-by-id deduplication of the
processing-order stream (queries in submission order, each query's swc,
exploits, auditFindings results in backend order), restricted to that
collection, formatted, and truncated to the caller's limit — so the
retained entry for an id is the one from the first query that returned it
regardless of later distances; moreover each collection's output has
pairwise-distinct ids and length at most the limit. -/
theorem aggregation_first_wins (rs : List SearchAllRes) (limit : Nat) :
    aggregateKnowledge rs limit =
      ⟨(collOut .swc (dedupTagged [] (occStream rs))).take limit,
       (collOut .exploits (dedupTagged [] (occStream rs))).take limit,
       (collOut .audit (dedupTagged [] (occStream rs))).take limit⟩ ∧
    ((aggregateKnowledge rs limit).swc.map (·.id)).Nodup ∧
    ((aggregateKnowledge rs limit).exploits.map (·.id)).Nodup ∧
    ((aggregateKnowledge rs limit).audit.map (·.id)).Nodup ∧
    (aggregateKnowledge rs limit).swc.length ≤ limit ∧
    (aggregateKnowledge rs limit).exploits.length ≤ limit ∧
    (aggregateKnowledge rs limit).audit.length ≤ limit := by
  have hagg : aggregateKnowledge rs limit =
      ⟨(collOut .swc (dedupTagged [] (occStream rs))).take limit,
       (collOut .exploits (dedupTagged [] (occStream rs))).take limit,
       (collOut .audit (dedupTagged [] (occStream rs))).take limit⟩ := by
    simp only [aggregateKnowledge, aggregateRuns_spec]
  have hnd := (dedupTagged_go_spec (occStream rs) []).1
  have hn : ∀ c : Coll,
      (((collOut c (dedupTagged [] (occStream rs))).take limit).map (·.id)).Nodup := by
    intro c
    rw [List.map_take]
    exact (collOut_ids_nodup c _ hnd).sublist (List.take_sublist _ _)
  have hl : ∀ c : Coll,
      ((collOut c (dedupTagged [] (occStream rs))).take limit).length ≤ limit := by
    intro c
    simp [List.length_take]
  refine ⟨hagg, ?_, ?_, ?_, ?_, ?_, ?_⟩
  · rw [hagg]; exact hn .swc
  · rw [hagg]; exact hn .exploits
  · rw [hagg]; exact hn .audit
  · rw [hagg]; exact hl .swc
  · rw [hagg]; exact hl .exploits
  · rw [hagg]; exact hl .audit

theorem filter_ids_disjoint (D : List Tagged)
    (hD : (D.map fun t => t.res.id).Nodup) (c1 c2 : Coll) (hne : c1 ≠ c2) :
    ((D.filter fun t => t.coll == c1).map fun t => t.res.id).Disjoint
      ((D.filter fun t => t.coll == c2).map fun t => t.res.id) := by
  intro x hx1 hx2
  obtain ⟨t1, ht1, hid1⟩ := List.mem_map.mp hx1
  obtain ⟨t2, ht2, hid2⟩ := List.mem_map.mp hx2
  obtain ⟨ht1m, ht1c⟩ := List.mem_filter.mp ht1
  obtain ⟨ht2m, ht2c⟩ := List.mem_filter.mp ht2
  have heq : t1 = t2 :=
    List.inj_on_of_nodup_map hD ht1m ht2m (by rw [hid1, hid2])
  apply hne
  have h1 : t1.coll = c1 := by
    have := ht1c
    rw [collBeq] at this
    exact of_decide_eq_true this
  have h2 : t2.coll = c2 := by
    have := ht2c
    rw [collBeq] at this
    exact of_decide_eq_true this
  rw [← h1, heq, h2]

/-- C2 counterexample: a single aggregation query returning the same id X
once for the swc collection and once for the exploits collection does not
retain both entries: the swc merge (processed first) keeps X and the
exploits merge drops it, leaving the exploits output empty — refuting the
claim that a match is discarded only when its id is already in the same
collection's merged set. -/
theorem cross_collection_discard_counterexample :
    (aggregateKnowledge
      [{ exploits := [{ id := "X", document := "exploit record",
                        md := {}, distance := 0 }],
         auditFindings := [],
         swc := [{ id := "X", document := "swc record",
                   md := {}, distance := 0 }] }] 10).exploits = [] ∧
    (aggregateKnowledge
      [{ exploits := [{ id := "X", document := "exploit record",
                        md := {}, distance := 0 }],
         auditFindings := [],
         swc := [{ id := "X", document := "swc record",
                   md := {}, distance := 0 }] }] 10).swc.length = 1 := by
  constructor <;> rfl

/-- C2 (amended): the aggregation's duplicate check uses one id set shared
by all three collections, so a match is discarded whenever its id already
appears in the running merged set of any collection: across every
aggregation run, the concatenated ids of the three merged outputs are
pairwise distinct — an id retained for one collection never reappears in
another collection's output. -/
theorem aggregation_cross_collection_dedup (rs : List SearchAllRes)
    (limit : Nat) :
    (((aggregateKnowledge rs limit).swc.map (·.id)) ++
     ((aggregateKnowledge rs limit).exploits.map (·.id)) ++
     ((aggregateKnowledge rs limit).audit.map (·.id))).Nodup := by
  obtain ⟨hagg, hnd1, hnd2, hnd3, -, -, -⟩ := aggregation_first_wins rs limit
  have hD := (dedupTagged_go_spec (occStream rs) []).1
  have hsub : ∀ c : Coll,
      (((collOut c (dedupTagged [] (occStream rs))).take limit).map (·.id)) =
        ((((dedupTagged [] (occStream rs)).filter fun t => t.coll == c).map
          fun t => t.res.id).take limit) := by
    intro c
    rw [List.map_take, collOut_ids]
  have hdisj : ∀ c1 c2 : Coll, c1 ≠ c2 →
      ((((dedupTagged [] (occStream rs)).filter fun t => t.coll == c1).map
          fun t => t.res.id).take limit).Disjoint
        ((((dedupTagged [] (occStream rs)).filter fun t => t.coll == c2).map
          fun t => t.res.id).take limit) := by
    intro c1 c2 hne x hx1 hx2
    exact filter_ids_disjoint _ hD c1 c2 hne
      (List.take_subset _ _ hx1) (List.take_subset _ _ hx2)
  simp only [hagg] at hnd1 hnd2 hnd3 ⊢
  rw [List.nodup_append, List.nodup_append]
  refine ⟨⟨hnd1, hnd2, ?_⟩, hnd3, ?_⟩
  · rw [hsub .swc, hsub .exploits]
    exact hdisj .swc .exploits (by decide)
  · intro x hx
    rcases List.mem_append.mp hx with hx | hx
    · rw [hsub .swc] at hx
      rw [hsub .audit]
      exact fun hx' => hdisj .swc .audit (by decide) hx hx'
    · rw [hsub .exploits] at hx
      rw [hsub .audit]
      exact fun hx' => hdisj .exploits .audit (by decide) hx hx'

/-! ## Claim C1: behaviour of analyze when every knowledge query raises -/

/-- C1 counterexample: with a knowledge backend whose every call raises
(both the searchAll aggregation and the similar-exploit search), the
analyze handler with its default options (includeKnowledgeBase enabled)
returns the structured Analysis-failed error response, not a report with
riskAssessment and recommendations: the error escapes the knowledge loop
and reaches the outer catch. -/
theorem knowledge_failure_counterexample :
    (comprehensiveAnalysisTool (fun _ _ => .error "KnowledgeUnavailable")
      (fun _ _ => .error "KnowledgeUnavailable")
      ⟨false, .success "", false, .success "", false, .success ""⟩
      {} "a.sol" "").isError = true ∧
    comprehensiveAnalysisTool (fun _ _ => .error "KnowledgeUnavailable")
      (fun _ _ => .error "KnowledgeUnavailable")
      ⟨false, .success "", false, .success "", false, .success ""⟩
      {} "a.sol" "" = .error "Analysis failed" "KnowledgeUnavailable" := by
  constructor <;> rfl

/-- C1 (amended): when every knowledge-backend call raises and
includeKnowledgeBase is enabled, analyze does not degrade gracefully: for
every file content, options and external-tool environment it returns the
structured Analysis failed error response carrying the backend error,
rather than a report built from the heuristic scan alone. -/
theorem knowledge_failure_error_response (tools : ToolsOracle)
    (opts : AnalyzeOptions) (p content : String)
    (h : opts.includeKnowledgeBase = true) :
    comprehensiveAnalysisTool (fun _ _ => .error "KnowledgeUnavailable")
      (fun _ _ => .error "KnowledgeUnavailable") tools opts p content =
      .error "Analysis failed" "KnowledgeUnavailable" := by
  obtain ⟨ikb, kl, ise, uet, cm⟩ := opts
  have h' : ikb = true := h
  subst h'
  cases cm <;> rfl

/-- Witness for the amended C1: the error response obtained at a concrete
contract, with the hypothesis discharged by the default options. -/
theorem knowledge_failure_error_response_witness :
    comprehensiveAnalysisTool (fun _ _ => .error "KnowledgeUnavailable")
      (fun _ _ => .error "KnowledgeUnavailable")
      ⟨false, .success "", false, .success "", false, .success ""⟩
      {} "Vault.sol" "contract C \x7b\x7d" =
      .error "Analysis failed" "KnowledgeUnavailable" :=
  knowledge_failure_error_response _ {} "Vault.sol" "contract C \x7b\x7d" rfl

end MpcBB
